import Mathlib

/-! # Shopify Admin CLI: the GraphQL transport and contract layer

A shallow embedding of `internal/api/client.go`, `internal/api/types.go`, the
resource operations of `internal/api/*.go`, `internal/config/config.go` and, from
`cmd/`, the credential resolution and pre-run hook of `root.go`, the helpers of
`helpers.go` and `metaobjects.go`, and the bodies of `discounts deactivate`,
`metaobjects update`, `products create`, `shop info` and `auth status`, followed
by the properties proved about them.

Modelling conventions.

* A Go `string` is a Lean `String`.  Every separator the code compares against
  (`/`, `gid://`, `; `) is ASCII, so indexing by character and indexing by byte
  select the same substrings of well-formed UTF-8 text.
* A Go `int` is an `Int`.
* A Go function returning `(*T, error)` returns `Except GoError (Option T)` when
  the pointer may be nil next to a nil error, and `Except GoError T` otherwise.
* A Go `map[string]any` is an association list read with `GoMap.get` and written
  with `GoMap.set` (assignment replaces the value of an existing key).
* The standard library and the network (JSON encoding and decoding, building the
  request, the HTTP round trip, reading the body, the environment and the file
  system) are parameters of the model: every theorem holds for all of them.
* A command body either returns or panics on a nil pointer dereference
  (`CmdRun`); the rendering functions of `internal/output` are parameters.
* A nil map and an empty map are both the empty association list; the code
  under study only takes their length and marshals them under `omitempty`,
  which treats the two alike.
-/

namespace ShopifyAdmin

/-! ## Strings (`strings` package) -/

/-- Go `strings.HasPrefix(s, prefix)`. -/
def HasPrefix (s pre : String) : Bool :=
  pre.data.isPrefixOf s.data

/-- Index of the last occurrence of `sub` in a list, if any. -/
def lastIndexList (sub : List Char) : List Char → Option Nat
  | [] => if sub = [] then some 0 else none
  | c :: cs =>
    match lastIndexList sub cs with
    | some i => some (i + 1)
    | none => if sub.isPrefixOf (c :: cs) then some 0 else none

/-- Go `strings.LastIndex(s, substr)`: the index of the last occurrence of
`substr` in `s`, or `-1` when there is none. -/
def LastIndex (s substr : String) : Int :=
  match lastIndexList substr.data s.data with
  | some i => (i : Int)
  | none => -1

/-- Go `strings.Join(elems, sep)`. -/
def Join (elems : List String) (sep : String) : String :=
  sep.intercalate elems

/-- Go slice expression `s[i:]` for an in-range index. -/
def sliceFrom (s : String) (i : Int) : String :=
  ⟨s.data.drop i.toNat⟩

/-! ## Identifier codec (`client.go`) -/

/-- ToGID converts a plain numeric ID to a Shopify GID.
If id already starts with "gid://", it is returned as-is. -/
def ToGID (resourceType id : String) : String :=
  if HasPrefix id "gid://" then
    id
  else
    "gid://shopify/" ++ resourceType ++ "/" ++ id

/-- ShortID extracts the numeric portion from a Shopify GID. -/
def ShortID (gid : String) : String :=
  let idx := LastIndex gid "/"
  if idx ≥ 0 ∧ idx < (gid.length : Int) - 1 then
    sliceFrom gid (idx + 1)
  else
    gid

/-! ## Values, maps and errors -/

/-- Go `any` values that the client places in variable maps. -/
inductive GoValue where
  | int (n : Int)
  | str (s : String)
  | bool (b : Bool)
  | strs (l : List String)
  | map (m : List (String × GoValue))
  | list (l : List GoValue)

/-- Go `map[string]any`. -/
abbrev GoMap := List (String × GoValue)

/-- Map read `m[k]` with the comma-ok result. -/
def GoMap.get (m : GoMap) (k : String) : Option GoValue :=
  match m with
  | [] => none
  | (k', v) :: rest => if k' = k then some v else GoMap.get rest k

/-- Map assignment `m[k] = v`. -/
def GoMap.set (m : GoMap) (k : String) (v : GoValue) : GoMap :=
  match m with
  | [] => [(k, v)]
  | (k', v') :: rest => if k' = k then (k, v) :: rest else (k', v') :: GoMap.set rest k v

/-- Whether the key is present in the map. -/
def GoMap.contains (m : GoMap) (k : String) : Bool :=
  (m.get k).isSome

/-- Go `fmt.Sprintf("%d", n)`. -/
def formatInt : Int → String
  | Int.ofNat m => String.mk (Nat.toDigits 10 m)
  | Int.negSucc m => "-" ++ String.mk (Nat.toDigits 10 (m + 1))

/-- ShopifyError is returned when the API responds with an error. -/
structure ShopifyError where
  StatusCode : Int
  Message : String
  deriving DecidableEq, Repr

/-- Go `error` values returned by the client: a `*ShopifyError`, or an error
built by `fmt.Errorf` or handed up from the standard library, of which only the
message is observable. -/
inductive GoError where
  | shopify (e : ShopifyError)
  | plain (msg : String)
  deriving DecidableEq, Repr

/-- The `Error()` method. -/
def GoError.Error : GoError → String
  | .shopify e => e.Message
  | .plain msg => msg

/-! ## GraphQL envelope (`types.go`) -/

structure GraphQLRequest where
  Query : String
  Variables : GoMap

structure GraphQLErrorLocation where
  Line : Int
  Column : Int

structure GraphQLError where
  Message : String
  Locations : List GraphQLErrorLocation
  Path : List GoValue

/-- The response envelope; `Data` is the raw, undecoded `json.RawMessage`. -/
structure GraphQLResponse where
  Data : String
  Errors : List GraphQLError

structure UserError where
  Field : List String
  Message : String

/-! ## HTTP and the standard library as parameters -/

/-- Go `http.Header`, written with `Header.Set`. -/
abbrev Header := List (String × String)

/-- Go `Header.Set(key, value)` for keys already in canonical form. -/
def Header.Set (h : Header) (k v : String) : Header :=
  match h with
  | [] => [(k, v)]
  | (k', v') :: rest => if k' = k then (k, v) :: rest else (k', v') :: Header.Set rest k v

structure Request where
  Method : String
  URL : String
  Body : String
  Header : Header

/-- An HTTP response: the status code and the result of `io.ReadAll(resp.Body)`. -/
structure Response where
  StatusCode : Int
  Body : Except String String

/-- The collaborators of `Client.Do` outside the repository. A failure is the
message of the error the library returns. -/
structure Env where
  /-- Go `json.Marshal(payload)`. -/
  marshal : GraphQLRequest → Except String String
  /-- The error of `http.NewRequest(method, url, body)`, if any. -/
  newRequestError : String → String → Option String
  /-- The method `httpClient.Do(req)`: the network round trip. -/
  roundTrip : Request → Except String Response
  /-- Go `json.Unmarshal(body, &gqlResp)` into a zero `GraphQLResponse`. -/
  unmarshal : String → Except String GraphQLResponse
  /-- Go `strings.ToUpper`. -/
  ToUpper : String → String

/-- What a call leaves behind: the requests handed to the HTTP transport, in
order, and the returned `(value, error)` pair. -/
structure Outcome (α : Type) where
  requests : List Request
  result : Except GoError α

/-! ## Transport client (`client.go`) -/

def apiVersion : String := "2026-01"

/-- Go `http.Client`, of which the client sets only the timeout (in seconds). -/
structure HTTPClient where
  Timeout : Nat

/-- Client is the Shopify Admin GraphQL API client. -/
structure Client where
  shop : String
  accessToken : String
  httpClient : HTTPClient

/-- NewClient creates a new Shopify Admin API client. -/
def NewClient (shop accessToken : String) : Client :=
  { shop := shop, accessToken := accessToken, httpClient := { Timeout := 30 } }

/-- Whether `sub` occurs in the list. -/
def containsList (sub : List Char) : List Char → Bool
  | [] => sub.isEmpty
  | c :: cs => sub.isPrefixOf (c :: cs) || containsList sub cs

/-- Go `strings.Contains(s, substr)`. -/
def Contains (s substr : String) : Bool :=
  containsList substr.data s.data

def Client.endpoint (c : Client) : String :=
  let shop := if !Contains c.shop "." then c.shop ++ ".myshopify.com" else c.shop
  "https://" ++ shop ++ "/admin/api/" ++ apiVersion ++ "/graphql.json"

/-- The request `Do` builds from the encoded payload: a POST to the endpoint
with the three headers set. -/
def Client.buildRequest (c : Client) (data : String) : Request :=
  let req : Request := { Method := "POST", URL := c.endpoint, Body := data, Header := [] }
  let req := { req with Header := Header.Set req.Header "Content-Type" "application/json" }
  let req := { req with Header := Header.Set req.Header "X-Shopify-Access-Token" c.accessToken }
  { req with Header := Header.Set req.Header "Accept" "application/json" }

/-- Do executes a GraphQL query or mutation. -/
def Client.Do (c : Client) (env : Env) (query : String) (vars : GoMap) :
    Outcome GraphQLResponse :=
  let payload : GraphQLRequest := { Query := query, Variables := vars }
  match env.marshal payload with
  | .error err => ⟨[], .error (.plain ("encoding request: " ++ err))⟩
  | .ok data =>
    match env.newRequestError "POST" c.endpoint with
    | some err => ⟨[], .error (.plain err)⟩
    | none =>
      let req := c.buildRequest data
      match env.roundTrip req with
      | .error err => ⟨[req], .error (.plain ("request failed: " ++ err))⟩
      | .ok resp =>
        match resp.Body with
        | .error err => ⟨[req], .error (.plain ("reading response: " ++ err))⟩
        | .ok body =>
          if resp.StatusCode ≥ 400 then
            ⟨[req], .error (.shopify
              { StatusCode := resp.StatusCode,
                Message := "HTTP " ++ formatInt resp.StatusCode ++ ": " ++ body })⟩
          else
            match env.unmarshal body with
            | .error err => ⟨[req], .error (.plain ("parsing response: " ++ err))⟩
            | .ok gqlResp =>
              if gqlResp.Errors.length > 0 then
                let msgs := gqlResp.Errors.map (fun e => e.Message)
                ⟨[req], .error (.shopify { StatusCode := 200, Message := Join msgs "; " })⟩
              else
                ⟨[req], .ok gqlResp⟩

/-- Converts a slice of UserError into a single error (`none` is Go `nil`). -/
def userErrorsToError (errs : List UserError) : Option GoError :=
  if errs.length = 0 then
    none
  else
    let msgs := errs.map (fun e => e.Message)
    some (.plain (Join msgs "; "))

/-! ## Products (`types.go`, `products.go`) -/

structure PageInfo where
  HasNextPage : Bool
  HasPreviousPage : Bool
  StartCursor : String
  EndCursor : String

/-- Go `float64`, kept as its uninterpreted bit pattern. -/
structure Float64 where
  bits : Nat

structure ProductVariant where
  ID : String
  Title : String
  Price : String
  CompareAtPrice : String
  SKU : String
  InventoryQuantity : Int
  Barcode : String
  Weight : Float64
  WeightUnit : String
  CreatedAt : String
  UpdatedAt : String

structure VariantEdge where
  Node : ProductVariant
  Cursor : String

structure VariantConnection where
  Edges : List VariantEdge
  PageInfo : PageInfo

structure Product where
  ID : String
  Title : String
  Status : String
  Handle : String
  Description : String
  TotalInventory : Int
  Vendor : String
  ProductType : String
  Tags : List String
  CreatedAt : String
  UpdatedAt : String
  Variants : VariantConnection

/-- The `productCreate` member of the decoded mutation data; `Product` is a
pointer (`none` is nil). -/
structure ProductCreatePayload where
  Product : Option Product
  UserErrors : List UserError

/-- The anonymous struct `CreateProduct` decodes `resp.Data` into. -/
structure ProductCreateData where
  ProductCreate : ProductCreatePayload

def CreateProduct.gql : String :=
  "\n\t\tmutation productCreate($input: ProductInput!) \x7b\n\t\t\tproductCreate(input: $input) \x7b\n\t\t\t\tproduct \x7b id title status handle vendor productType createdAt \x7d\n\t\t\t\tuserErrors \x7b field message \x7d\n\t\t\t\x7d\n\t\t\x7d"

/-- The `input` map `CreateProduct` assembles from its arguments. -/
def CreateProduct.input (env : Env) (title vendor productType status descriptionHTML : String)
    (tags : List String) : GoMap :=
  let input : GoMap := [("title", .str title)]
  let input := if vendor ≠ "" then input.set "vendor" (.str vendor) else input
  let input := if productType ≠ "" then input.set "productType" (.str productType) else input
  let input := if status ≠ "" then input.set "status" (.str (env.ToUpper status)) else input
  let input :=
    if descriptionHTML ≠ "" then input.set "descriptionHtml" (.str descriptionHTML) else input
  if tags.length > 0 then input.set "tags" (.strs tags) else input

/-- CreateProduct creates a new product. `unmarshalData` is
`json.Unmarshal(resp.Data, &data)`. The product of the result is `none` for a
nil pointer. -/
def Client.CreateProduct (c : Client) (env : Env)
    (unmarshalData : String → Except String ProductCreateData)
    (title vendor productType status descriptionHTML : String) (tags : List String) :
    Outcome (Option Product) :=
  let input := CreateProduct.input env title vendor productType status descriptionHTML tags
  let out := c.Do env CreateProduct.gql [("input", .map input)]
  match out.result with
  | .error err => ⟨out.requests, .error err⟩
  | .ok resp =>
    match unmarshalData resp.Data with
    | .error err => ⟨out.requests, .error (.plain ("parsing response: " ++ err))⟩
    | .ok data =>
      match userErrorsToError data.ProductCreate.UserErrors with
      | some err => ⟨out.requests, .error err⟩
      | none => ⟨out.requests, .ok data.ProductCreate.Product⟩

/-! ## Variable maps of the cursor-taking list operations

Each definition is the map the operation builds and hands to `Do`. -/

/-- Variables of `ListProducts(first, after, query)` (`products.go`). -/
def ListProducts.vars (first : Int) (after query : String) : GoMap :=
  let vars : GoMap := [("first", .int first)]
  let vars := if after ≠ "" then vars.set "after" (.str after) else vars
  if query ≠ "" then vars.set "query" (.str query) else vars

/-- Variables of `ListOrders(first, after, query)` (`orders.go`). -/
def ListOrders.vars (first : Int) (after query : String) : GoMap :=
  let vars : GoMap := [("first", .int first)]
  let vars := if after ≠ "" then vars.set "after" (.str after) else vars
  if query ≠ "" then vars.set "query" (.str query) else vars

/-- Variables of `ListCustomers(first, after, query)` (`customers.go`). -/
def ListCustomers.vars (first : Int) (after query : String) : GoMap :=
  let vars : GoMap := [("first", .int first)]
  let vars := if after ≠ "" then vars.set "after" (.str after) else vars
  if query ≠ "" then vars.set "query" (.str query) else vars

/-- Variables of `ListCollections(first, after, query)` (`collections.go`). -/
def ListCollections.vars (first : Int) (after query : String) : GoMap :=
  let vars : GoMap := [("first", .int first)]
  let vars := if after ≠ "" then vars.set "after" (.str after) else vars
  if query ≠ "" then vars.set "query" (.str query) else vars

/-- Variables of `ListInventoryItems(first, after, query)` (`inventory.go`). -/
def ListInventoryItems.vars (first : Int) (after query : String) : GoMap :=
  let vars : GoMap := [("first", .int first)]
  let vars := if after ≠ "" then vars.set "after" (.str after) else vars
  if query ≠ "" then vars.set "query" (.str query) else vars

/-- Variables of `ListDiscounts(first, after, query)` (`discounts.go`). -/
def ListDiscounts.vars (first : Int) (after query : String) : GoMap :=
  let vars : GoMap := [("first", .int first)]
  let vars := if after ≠ "" then vars.set "after" (.str after) else vars
  if query ≠ "" then vars.set "query" (.str query) else vars

/-- Variables of `ListWebhooks(first, after)` (`webhooks.go`). -/
def ListWebhooks.vars (first : Int) (after : String) : GoMap :=
  let vars : GoMap := [("first", .int first)]
  if after ≠ "" then vars.set "after" (.str after) else vars

/-- Variables of `ListMetaobjects(metaobjectType, first, after)` (`metaobjects.go`). -/
def ListMetaobjects.vars (metaobjectType : String) (first : Int) (after : String) : GoMap :=
  let vars : GoMap := [("type", .str metaobjectType), ("first", .int first)]
  if after ≠ "" then vars.set "after" (.str after) else vars

/-! ## Specification-side predicates -/

/-- A numeric string: a non-empty string of decimal digits. -/
def IsNumeric (n : String) : Prop :=
  n ≠ "" ∧ ∀ ch ∈ n.data, ch.isDigit = true

/-- A path segment: non-empty and free of the separator. -/
def IsSegment (s : String) : Prop :=
  s ≠ "" ∧ '/' ∉ s.data

/-- The fully-qualified pattern of the specification,
`gid://<namespace>/<ResourceType>/<digits>`. -/
def MatchesQualifiedPattern (id : String) : Prop :=
  ∃ ns rt digits : String,
    IsSegment ns ∧ IsSegment rt ∧ IsNumeric digits ∧
      id = "gid://" ++ ns ++ "/" ++ rt ++ "/" ++ digits

/-- The string `suf` is the substring of `s` after its last separator. -/
def IsAfterLastSlash (s suf : String) : Prop :=
  ∃ pre : String, s = pre ++ "/" ++ suf ∧ '/' ∉ suf.data

/-- The cursor convention for a variable map `vars` built from the cursor
argument `after`: the key is present exactly for a non-empty cursor, and then
holds that cursor as given. -/
def CursorForwarded (vars : GoMap) (after : String) : Prop :=
  (vars.contains "after" = true ↔ after ≠ "") ∧
    (after ≠ "" → vars.get "after" = some (.str after))

/-! ## Concrete collaborators for the instances -/

/-- A standard library whose encoder emits the query text, whose transport
answers every request with the given status and body, and whose decoder yields
the given result. -/
def fixedEnv (status : Int) (body : String) (decoded : Except String GraphQLResponse) : Env :=
  { marshal := fun payload => .ok payload.Query
    newRequestError := fun _ _ => none
    roundTrip := fun _ => .ok { StatusCode := status, Body := .ok body }
    unmarshal := fun _ => decoded
    ToUpper := fun s => s.map Char.toUpper }

/-- An envelope carrying both data and two protocol errors. -/
def envelopeWithErrors : GraphQLResponse :=
  { Data := "\x7b\"shop\":null\x7d",
    Errors := [{ Message := "Field missing", Locations := [{ Line := 1, Column := 2 }], Path := [] },
               { Message := "Access denied", Locations := [], Path := [.str "shop"] }] }

/-- An envelope with data and no protocol errors. -/
def envelopeOk : GraphQLResponse :=
  { Data := "\x7b\"productCreate\":null\x7d", Errors := [] }

def sampleProduct : Product :=
  { ID := "gid://shopify/Product/1", Title := "Shirt", Status := "ACTIVE", Handle := "shirt",
    Description := "", TotalInventory := 0, Vendor := "", ProductType := "", Tags := [],
    CreatedAt := "", UpdatedAt := "",
    Variants := { Edges := [], PageInfo := { HasNextPage := false, HasPreviousPage := false,
                                             StartCursor := "", EndCursor := "" } } }

/-- A decoded `productCreate` payload carrying both a product and user errors. -/
def sampleCreateData : ProductCreateData :=
  { ProductCreate :=
      { Product := some sampleProduct,
        UserErrors := [{ Field := ["title"], Message := "Title is blank" },
                       { Field := ["handle"], Message := "Handle is taken" }] } }

/-! ## Discounts (`internal/api/discounts.go`, `cmd/discounts.go`) -/

structure DiscountCodeDeactivatePayload where
  UserErrors : List UserError

/-- The anonymous struct `DeactivateDiscountCode` decodes `resp.Data` into. -/
structure DiscountCodeDeactivateData where
  DiscountCodeDeactivate : DiscountCodeDeactivatePayload

structure DiscountAutomaticDeactivatePayload where
  UserErrors : List UserError

/-- The anonymous struct `DeactivateAutomaticDiscount` decodes `resp.Data` into. -/
structure DiscountAutomaticDeactivateData where
  DiscountAutomaticDeactivate : DiscountAutomaticDeactivatePayload

def DeactivateDiscountCode.gql : String :=
  "\n\t\tmutation discountCodeDeactivate($id: ID!) \x7b\n\t\t\tdiscountCodeDeactivate(id: $id) \x7b\n\t\t\t\tcodeDiscountNode \x7b\n\t\t\t\t\tid\n\t\t\t\t\tdiscount \x7b\n\t\t\t\t\t\t... on DiscountCodeBasic \x7b status \x7d\n\t\t\t\t\t\x7d\n\t\t\t\t\x7d\n\t\t\t\tuserErrors \x7b field message \x7d\n\t\t\t\x7d\n\t\t\x7d"

def DeactivateAutomaticDiscount.gql : String :=
  "\n\t\tmutation discountAutomaticDeactivate($id: ID!) \x7b\n\t\t\tdiscountAutomaticDeactivate(id: $id) \x7b\n\t\t\t\tautomaticDiscountNode \x7b\n\t\t\t\t\tid\n\t\t\t\t\x7d\n\t\t\t\tuserErrors \x7b field message \x7d\n\t\t\t\x7d\n\t\t\x7d"

/-- DeactivateDiscountCode deactivates a discount code. `unmarshalData` is
`json.Unmarshal(resp.Data, &data)`. -/
def Client.DeactivateDiscountCode (c : Client) (env : Env)
    (unmarshalData : String → Except String DiscountCodeDeactivateData) (id : String) :
    Outcome Unit :=
  let out := c.Do env DeactivateDiscountCode.gql [("id", .str (ToGID "DiscountCodeNode" id))]
  match out.result with
  | .error err => ⟨out.requests, .error err⟩
  | .ok resp =>
    match unmarshalData resp.Data with
    | .error err => ⟨out.requests, .error (.plain ("parsing response: " ++ err))⟩
    | .ok data =>
      match userErrorsToError data.DiscountCodeDeactivate.UserErrors with
      | some err => ⟨out.requests, .error err⟩
      | none => ⟨out.requests, .ok ()⟩

/-- DeactivateAutomaticDiscount deactivates an automatic discount. -/
def Client.DeactivateAutomaticDiscount (c : Client) (env : Env)
    (unmarshalData : String → Except String DiscountAutomaticDeactivateData) (id : String) :
    Outcome Unit :=
  let out := c.Do env DeactivateAutomaticDiscount.gql
    [("id", .str (ToGID "DiscountAutomaticNode" id))]
  match out.result with
  | .error err => ⟨out.requests, .error err⟩
  | .ok resp =>
    match unmarshalData resp.Data with
    | .error err => ⟨out.requests, .error (.plain ("parsing response: " ++ err))⟩
    | .ok data =>
      match userErrorsToError data.DiscountAutomaticDeactivate.UserErrors with
      | some err => ⟨out.requests, .error err⟩
      | none => ⟨out.requests, .ok ()⟩

/-- What running a command leaves behind: the requests handed to the HTTP
transport, in order, the text printed to standard output, and the error `RunE`
returns (`none` is nil). -/
structure CmdOutcome where
  requests : List Request
  stdout : String
  err : Option GoError

/-- The `RunE` of `discounts deactivate <id>`; `id` is `args[0]`, present since
the command declares `cobra.ExactArgs(1)`. Try code discount first; if that
fails, try automatic. -/
def discountsDeactivateCmd.RunE (client : Client) (env : Env)
    (unmarshalCode : String → Except String DiscountCodeDeactivateData)
    (unmarshalAutomatic : String → Except String DiscountAutomaticDeactivateData)
    (id : String) : CmdOutcome :=
  let r := client.DeactivateDiscountCode env unmarshalCode id
  match r.result with
  | .error err =>
    let r2 := client.DeactivateAutomaticDiscount env unmarshalAutomatic id
    match r2.result with
    | .error err2 =>
      { requests := r.requests ++ r2.requests, stdout := "",
        err := some (.plain
          ("code discount: " ++ err.Error ++ "; automatic discount: " ++ err2.Error)) }
    | .ok _ =>
      { requests := r.requests ++ r2.requests,
        stdout := "Discount " ++ id ++ " deactivated.\n", err := none }
  | .ok _ =>
    { requests := r.requests, stdout := "Discount " ++ id ++ " deactivated.\n", err := none }

/-- A standard library as `fixedEnv`, except that the transport answers with
status 500 every request whose body is the code-discount mutation. -/
def codeFailsEnv : Env :=
  { marshal := fun payload => .ok payload.Query
    newRequestError := fun _ _ => none
    roundTrip := fun req =>
      if req.Body = DeactivateDiscountCode.gql then
        .ok { StatusCode := 500, Body := .ok "down" }
      else
        .ok { StatusCode := 200, Body := .ok "body" }
    unmarshal := fun _ => .ok { Data := "data", Errors := [] }
    ToUpper := fun s => s.map Char.toUpper }

/-! ## Credentials (`internal/config/config.go`, `cmd/root.go`) -/

/-- Config holds the persisted user configuration. -/
structure Config where
  Shop : String
  AccessToken : String

/-- The error of `os.ReadFile`: whether `errors.Is(err, os.ErrNotExist)` holds,
and its message. -/
structure FileError where
  notExist : Bool
  msg : String

/-- The operating system and library calls behind credential resolution. -/
structure OS where
  /-- Go `os.Getenv`: the empty string for an unset variable. -/
  Getenv : String → String
  /-- Go `os.UserConfigDir()`. -/
  UserConfigDir : Except String String
  /-- Go `filepath.Join`. -/
  filepathJoin : List String → String
  /-- Go `os.ReadFile`. -/
  ReadFile : String → Except FileError String
  /-- Go `json.Unmarshal(data, &cfg)` into a zero `Config`. -/
  unmarshalConfig : String → Except String Config

def config.configPath (os : OS) : Except String String :=
  match os.UserConfigDir with
  | .error err => .error err
  | .ok dir => .ok (os.filepathJoin [dir, "shopify-admin", "config.json"])

/-- Load reads the config file. Returns empty Config (not error) if file
doesn't exist. -/
def config.Load (os : OS) : Except String Config :=
  match config.configPath os with
  | .error err => .error err
  | .ok path =>
    match os.ReadFile path with
    | .error err =>
      if err.notExist then .ok { Shop := "", AccessToken := "" } else .error err.msg
    | .ok data =>
      match os.unmarshalConfig data with
      | .error err => .error err
      | .ok cfg => .ok cfg

/-- resolveEnv returns the value of the first non-empty environment variable
from the given names. -/
def resolveEnv (os : OS) : List String → String
  | [] => ""
  | name :: names => if os.Getenv name ≠ "" then os.Getenv name else resolveEnv os names

/-- The aliases tried for the access token, in order. -/
def envTokenNames : List String :=
  ["SHOPIFY_ACCESS_TOKEN", "SHOPIFY_TOKEN", "SHOPIFY_API_TOKEN", "SHOPIFY_API_KEY",
   "SHOPIFY_KEY", "SHOPIFY_API", "API_KEY_SHOPIFY", "API_SHOPIFY",
   "SHOPIFY_SECRET_KEY", "SHOPIFY_API_SECRET", "SHOPIFY_SECRET", "SHOPIFY_SK", "SK_SHOPIFY"]

/-- The aliases tried for the shop, in order. -/
def envShopNames : List String :=
  ["SHOPIFY_SHOP", "SHOPIFY_STORE", "SHOPIFY_DOMAIN", "SHOPIFY_SHOP_URL", "SHOPIFY_STORE_URL",
   "SHOP_DOMAIN"]

def notAuthenticatedMessage : String :=
  "not authenticated — run: shopify-admin auth setup <shop> <access-token>\nor set SHOPIFY_SHOP and SHOPIFY_ACCESS_TOKEN env vars"

/-- The three values `resolveCredentials` returns, and the package variable
`cfg` after the call (`none` is nil). -/
structure Resolved where
  shop : String
  token : String
  err : Option GoError
  cfg : Option Config

/-- resolveCredentials returns the shop domain and access token from env or
config. The argument `cfg` is the package variable before the call. -/
def resolveCredentials (os : OS) (cfg : Option Config) : Resolved :=
  let envToken := resolveEnv os envTokenNames
  let envShop := resolveEnv os envShopNames
  if envShop ≠ "" ∧ envToken ≠ "" then
    { shop := envShop, token := envToken, err := none, cfg := cfg }
  else
    match config.Load os with
    | .error err =>
      { shop := "", token := "", err := some (.plain ("failed to load config: " ++ err)),
        cfg := none }
    | .ok loaded =>
      if loaded.Shop ≠ "" ∧ loaded.AccessToken ≠ "" then
        { shop := loaded.Shop, token := loaded.AccessToken, err := none, cfg := some loaded }
      else
        { shop := "", token := "", err := some (.plain notAuthenticatedMessage),
          cfg := some loaded }

/-- An operating system with the given environment whose config file cannot
even be located. -/
def brokenConfigOS (getenv : String → String) : OS :=
  { Getenv := getenv
    UserConfigDir := .error "neither $XDG_CONFIG_HOME nor $HOME are defined"
    filepathJoin := fun parts => "/".intercalate parts
    ReadFile := fun _ => .error { notExist := false, msg := "permission denied" }
    unmarshalConfig := fun _ => .error "invalid character" }

/-- An operating system with the given environment and a config file holding
the given configuration. -/
def storedConfigOS (getenv : String → String) (stored : Config) : OS :=
  { Getenv := getenv
    UserConfigDir := .ok "/home/user/.config"
    filepathJoin := fun parts => "/".intercalate parts
    ReadFile := fun _ => .ok "stored"
    unmarshalConfig := fun _ => .ok stored }

/-! ## JSON encoding of the request (`types.go`) -/

/-- A JSON document. -/
inductive JSON where
  | null
  | bool (b : Bool)
  | number (n : Int)
  | string (s : String)
  | array (items : List JSON)
  | object (members : List (String × JSON))

/-- The member of a JSON object under a key, if the document is an object that
has it. -/
def JSON.member (j : JSON) (k : String) : Option JSON :=
  match j with
  | .object members => (members.find? (fun m => m.1 = k)).map (fun m => m.2)
  | _ => none

mutual
/-- Go `json.Marshal` on the values the client places in variable maps, as a
document (the order of object members is that of the association list). -/
def GoValue.toJSON : GoValue → JSON
  | .int n => .number n
  | .str s => .string s
  | .bool b => .bool b
  | .strs l => .array (l.map JSON.string)
  | .map m => .object (GoValue.membersToJSON m)
  | .list l => .array (GoValue.itemsToJSON l)
/-- The members of an encoded map. -/
def GoValue.membersToJSON : List (String × GoValue) → List (String × JSON)
  | [] => []
  | (k, v) :: rest => (k, GoValue.toJSON v) :: GoValue.membersToJSON rest
/-- The items of an encoded slice. -/
def GoValue.itemsToJSON : List GoValue → List JSON
  | [] => []
  | v :: rest => GoValue.toJSON v :: GoValue.itemsToJSON rest
end

/-- Go `json.Marshal(payload)` for `GraphQLRequest`, as a document, following
the struct tags `json:"query"` and `json:"variables,omitempty"`: a field tagged
`omitempty` is left out when it is a nil or empty map. -/
def GraphQLRequest.MarshalJSON (payload : GraphQLRequest) : JSON :=
  let members : List (String × JSON) := [("query", .string payload.Query)]
  let members :=
    if payload.Variables.length = 0 then members
    else members ++ [("variables", .object (GoValue.membersToJSON payload.Variables))]
  .object members

/-! ## Shop (`types.go`, `shop.go`) -/

structure Domain where
  URL : String
  Host : String

structure ShopPlan where
  DisplayName : String
  ShopifyPlus : Bool

structure Shop where
  ID : String
  Name : String
  Email : String
  MyshopifyDomain : String
  PrimaryDomain : Domain
  CurrencyCode : String
  CountryCode : String
  TimezoneAbbreviation : String
  CreatedAt : String
  Plan : ShopPlan

/-- The anonymous struct `GetShop` decodes `resp.Data` into. -/
structure ShopData where
  Shop : Shop

def GetShop.query : String :=
  "\x7b\n\t\tshop \x7b\n\t\t\tid\n\t\t\tname\n\t\t\temail\n\t\t\tmyshopifyDomain\n\t\t\tprimaryDomain \x7b url host \x7d\n\t\t\tcurrencyCode\n\t\t\tcountryCode\n\t\t\ttimezoneAbbreviation\n\t\t\tcreatedAt\n\t\t\tplan \x7b displayName shopifyPlus \x7d\n\t\t\x7d\n\t\x7d"

/-- GetShop returns store information. It passes a nil variable map to `Do`. -/
def Client.GetShop (c : Client) (env : Env) (unmarshalData : String → Except String ShopData) :
    Outcome Shop :=
  let out := c.Do env GetShop.query []
  match out.result with
  | .error err => ⟨out.requests, .error err⟩
  | .ok resp =>
    match unmarshalData resp.Data with
    | .error err => ⟨out.requests, .error (.plain ("parsing shop: " ++ err))⟩
    | .ok data => ⟨out.requests, .ok data.Shop⟩

/-! ## Variable maps of the remaining list operations -/

/-- Variables of `ListMetaobjectDefinitions(first)` (`metaobjects.go`). -/
def ListMetaobjectDefinitions.vars (first : Int) : GoMap :=
  [("first", .int first)]

/-- Variables of `ListLocations(first)` (`inventory.go`). -/
def ListLocations.vars (first : Int) : GoMap :=
  [("first", .int first)]

/-- Variables of `ListInventoryLevels(locationID, first)` (`inventory.go`). -/
def ListInventoryLevels.vars (locationID : String) (first : Int) : GoMap :=
  [("id", .str (ToGID "Location" locationID)), ("first", .int first)]

/-- Variables of `ListMarkets(first)` (`markets.go`). -/
def ListMarkets.vars (first : Int) : GoMap :=
  [("first", .int first)]

/-- Variables of `ListMetafields(ownerID, first)` (`metafields.go`). -/
def ListMetafields.vars (ownerID : String) (first : Int) : GoMap :=
  [("ownerId", .str ownerID), ("first", .int first)]

/-- Variables of `ListFulfillmentOrders(orderID)` (`fulfillments.go`). -/
def ListFulfillmentOrders.vars (orderID : String) : GoMap :=
  [("id", .str (ToGID "Order" orderID))]

/-- The list operations of the API client. -/
inductive ListOp where
  | products | orders | customers | collections | inventoryItems | discounts
  | webhooks | metaobjects
  | metaobjectDefinitions | locations | inventoryLevels | markets | metafields
  | fulfillmentOrders
  deriving DecidableEq, Repr

/-- A call of a list operation: the operation together with the arguments its
Go signature takes from the caller. -/
inductive ListCall where
  | products (first : Int) (after query : String)
  | orders (first : Int) (after query : String)
  | customers (first : Int) (after query : String)
  | collections (first : Int) (after query : String)
  | inventoryItems (first : Int) (after query : String)
  | discounts (first : Int) (after query : String)
  | webhooks (first : Int) (after : String)
  | metaobjects (metaobjectType : String) (first : Int) (after : String)
  | metaobjectDefinitions (first : Int)
  | locations (first : Int)
  | inventoryLevels (locationID : String) (first : Int)
  | markets (first : Int)
  | metafields (ownerID : String) (first : Int)
  | fulfillmentOrders (orderID : String)

/-- The operation a call invokes. -/
def ListCall.op : ListCall → ListOp
  | .products .. => .products
  | .orders .. => .orders
  | .customers .. => .customers
  | .collections .. => .collections
  | .inventoryItems .. => .inventoryItems
  | .discounts .. => .discounts
  | .webhooks .. => .webhooks
  | .metaobjects .. => .metaobjects
  | .metaobjectDefinitions .. => .metaobjectDefinitions
  | .locations .. => .locations
  | .inventoryLevels .. => .inventoryLevels
  | .markets .. => .markets
  | .metafields .. => .metafields
  | .fulfillmentOrders .. => .fulfillmentOrders

/-- The variable map a call hands to `Do`. -/
def ListCall.vars : ListCall → GoMap
  | .products first after query => ListProducts.vars first after query
  | .orders first after query => ListOrders.vars first after query
  | .customers first after query => ListCustomers.vars first after query
  | .collections first after query => ListCollections.vars first after query
  | .inventoryItems first after query => ListInventoryItems.vars first after query
  | .discounts first after query => ListDiscounts.vars first after query
  | .webhooks first after => ListWebhooks.vars first after
  | .metaobjects metaobjectType first after => ListMetaobjects.vars metaobjectType first after
  | .metaobjectDefinitions first => ListMetaobjectDefinitions.vars first
  | .locations first => ListLocations.vars first
  | .inventoryLevels locationID first => ListInventoryLevels.vars locationID first
  | .markets first => ListMarkets.vars first
  | .metafields ownerID first => ListMetafields.vars ownerID first
  | .fulfillmentOrders orderID => ListFulfillmentOrders.vars orderID

/-- The page-size hint the caller passes in a call: the `first` parameter of
the operation's Go signature, absent for an operation that has none. -/
def ListCall.hint : ListCall → Option Int
  | .products first _ _ => some first
  | .orders first _ _ => some first
  | .customers first _ _ => some first
  | .collections first _ _ => some first
  | .inventoryItems first _ _ => some first
  | .discounts first _ _ => some first
  | .webhooks first _ => some first
  | .metaobjects _ first _ => some first
  | .metaobjectDefinitions first => some first
  | .locations first => some first
  | .inventoryLevels _ first => some first
  | .markets first => some first
  | .metafields _ first => some first
  | .fulfillmentOrders _ => none

/-- The cursor the caller passes in a call: the `after` parameter of the
operation's Go signature, absent for an operation that has none. -/
def ListCall.cursor : ListCall → Option String
  | .products _ after _ => some after
  | .orders _ after _ => some after
  | .customers _ after _ => some after
  | .collections _ after _ => some after
  | .inventoryItems _ after _ => some after
  | .discounts _ after _ => some after
  | .webhooks _ after => some after
  | .metaobjects _ _ after => some after
  | .metaobjectDefinitions _ => none
  | .locations _ => none
  | .inventoryLevels _ _ => none
  | .markets _ => none
  | .metafields _ _ => none
  | .fulfillmentOrders _ => none

/-- The operations whose signature takes both a page-size hint and a cursor. -/
def cursorListOps : List ListOp :=
  [.products, .orders, .customers, .collections, .inventoryItems, .discounts, .webhooks,
   .metaobjects]

/-- The operations whose signature takes a page-size hint and no cursor. -/
def hintOnlyListOps : List ListOp :=
  [.metaobjectDefinitions, .locations, .inventoryLevels, .markets, .metafields]

/-- The weakest reading of "the operation accepts a page-size hint and a
cursor", used to refute it: whatever hint and non-empty cursor a caller
holds, at least some call of the operation sends the hint as `first` and the
cursor as `after`. -/
def AcceptsHintAndCursor (op : ListOp) : Prop :=
  ∀ (first : Int) (cursor : String), cursor ≠ "" →
    ∃ call : ListCall, call.op = op ∧
      call.vars.get "first" = some (.int first) ∧ call.vars.get "after" = some (.str cursor)

/-- The filter convention for a variable map `vars` built from the filter
argument `q`: the key `query` is present exactly for a non-empty filter, and
then holds that filter as given. -/
def FilterForwarded (vars : GoMap) (q : String) : Prop :=
  (vars.contains "query" = true ↔ q ≠ "") ∧
    (q ≠ "" → vars.get "query" = some (.str q))

/-! ## Webhooks (`types.go`, `webhooks.go`) -/

structure WebhookEndpoint where
  CallbackURL : String

structure WebhookSubscription where
  ID : String
  Topic : String
  Endpoint : WebhookEndpoint
  Format : String
  CreatedAt : String
  UpdatedAt : String

structure WebhookSubscriptionEdge where
  Node : WebhookSubscription
  Cursor : String

structure WebhookSubscriptionConnection where
  Edges : List WebhookSubscriptionEdge
  PageInfo : PageInfo

/-- The `endpoint` member of a node of `rawData` in `ListWebhooks`. -/
structure RawWebhookEndpoint where
  CallbackURL : String

/-- The `node` member of an edge of `rawData`. -/
structure RawWebhookNode where
  ID : String
  Topic : String
  Format : String
  CreatedAt : String
  Endpoint : RawWebhookEndpoint

/-- An edge of `rawData`. -/
structure RawWebhookEdge where
  Cursor : String
  Node : RawWebhookNode

/-- The `webhookSubscriptions` member of `rawData`. -/
structure RawWebhookSubscriptions where
  Edges : List RawWebhookEdge
  PageInfo : PageInfo

/-- The anonymous struct `rawData` that `ListWebhooks` decodes `resp.Data` into. -/
structure RawWebhookData where
  WebhookSubscriptions : RawWebhookSubscriptions

def ListWebhooks.gql : String :=
  "\n\t\tquery ListWebhooks($first: Int!, $after: String) \x7b\n\t\t\twebhookSubscriptions(first: $first, after: $after) \x7b\n\t\t\t\tedges \x7b\n\t\t\t\t\tcursor\n\t\t\t\t\tnode \x7b\n\t\t\t\t\t\tid topic format createdAt\n\t\t\t\t\t\tendpoint \x7b\n\t\t\t\t\t\t\t__typename\n\t\t\t\t\t\t\t... on WebhookHttpEndpoint \x7b callbackUrl \x7d\n\t\t\t\t\t\t\x7d\n\t\t\t\t\t\x7d\n\t\t\t\t\x7d\n\t\t\t\tpageInfo \x7b hasNextPage endCursor \x7d\n\t\t\t\x7d\n\t\t\x7d"

/-- The edge `ListWebhooks` appends for a decoded edge; `UpdatedAt` keeps its
zero value. -/
def ListWebhooks.edge (e : RawWebhookEdge) : WebhookSubscriptionEdge :=
  { Cursor := e.Cursor,
    Node := { ID := e.Node.ID, Topic := e.Node.Topic, Format := e.Node.Format,
              CreatedAt := e.Node.CreatedAt,
              Endpoint := { CallbackURL := e.Node.Endpoint.CallbackURL },
              UpdatedAt := "" } }

/-- ListWebhooks returns a paginated list of webhook subscriptions. The loop
over the decoded edges appends one edge at a time. -/
def Client.ListWebhooks (c : Client) (env : Env)
    (unmarshalData : String → Except String RawWebhookData) (first : Int) (after : String) :
    Outcome WebhookSubscriptionConnection :=
  let out := c.Do env ListWebhooks.gql (ListWebhooks.vars first after)
  match out.result with
  | .error err => ⟨out.requests, .error err⟩
  | .ok resp =>
    match unmarshalData resp.Data with
    | .error err => ⟨out.requests, .error (.plain ("parsing webhooks: " ++ err))⟩
    | .ok rawData =>
      let conn : WebhookSubscriptionConnection :=
        { Edges := [], PageInfo := rawData.WebhookSubscriptions.PageInfo }
      let conn := rawData.WebhookSubscriptions.Edges.foldl
        (fun conn e => { conn with Edges := conn.Edges ++ [ListWebhooks.edge e] }) conn
      ⟨out.requests, .ok conn⟩

/-- A decoded page of two webhook subscriptions with a following page. -/
def sampleWebhookEdge1 : RawWebhookEdge :=
  { Cursor := "c1",
    Node := { ID := "gid://shopify/WebhookSubscription/1", Topic := "ORDERS_CREATE",
              Format := "JSON", CreatedAt := "2026-01-01",
              Endpoint := { CallbackURL := "https://a.example/hook" } } }

def sampleWebhookEdge2 : RawWebhookEdge :=
  { Cursor := "c2",
    Node := { ID := "gid://shopify/WebhookSubscription/2", Topic := "PRODUCTS_UPDATE",
              Format := "JSON", CreatedAt := "2026-01-02",
              Endpoint := { CallbackURL := "https://b.example/hook" } } }

def sampleWebhookData : RawWebhookData :=
  { WebhookSubscriptions :=
      { Edges := [sampleWebhookEdge1, sampleWebhookEdge2],
        PageInfo := { HasNextPage := true, HasPreviousPage := false, StartCursor := "",
                      EndCursor := "c2" } } }

/-! ## Product update (`products.go`) -/

/-- The `productUpdate` member of the decoded mutation data. -/
structure ProductUpdatePayload where
  Product : Option Product
  UserErrors : List UserError

/-- The anonymous struct `UpdateProduct` decodes `resp.Data` into. -/
structure ProductUpdateData where
  ProductUpdate : ProductUpdatePayload

def UpdateProduct.gql : String :=
  "\n\t\tmutation productUpdate($input: ProductInput!) \x7b\n\t\t\tproductUpdate(input: $input) \x7b\n\t\t\t\tproduct \x7b id title status handle vendor productType updatedAt \x7d\n\t\t\t\tuserErrors \x7b field message \x7d\n\t\t\t\x7d\n\t\t\x7d"

/-- The `input` map `UpdateProduct` assembles from its arguments. -/
def UpdateProduct.input (env : Env) (id title vendor productType status descriptionHTML : String)
    (tags : List String) : GoMap :=
  let input : GoMap := [("id", .str (ToGID "Product" id))]
  let input := if title ≠ "" then input.set "title" (.str title) else input
  let input := if vendor ≠ "" then input.set "vendor" (.str vendor) else input
  let input := if productType ≠ "" then input.set "productType" (.str productType) else input
  let input := if status ≠ "" then input.set "status" (.str (env.ToUpper status)) else input
  let input :=
    if descriptionHTML ≠ "" then input.set "descriptionHtml" (.str descriptionHTML) else input
  if tags.length > 0 then input.set "tags" (.strs tags) else input

/-- UpdateProduct updates an existing product. -/
def Client.UpdateProduct (c : Client) (env : Env)
    (unmarshalData : String → Except String ProductUpdateData)
    (id title vendor productType status descriptionHTML : String) (tags : List String) :
    Outcome (Option Product) :=
  let input := UpdateProduct.input env id title vendor productType status descriptionHTML tags
  let out := c.Do env UpdateProduct.gql [("input", .map input)]
  match out.result with
  | .error err => ⟨out.requests, .error err⟩
  | .ok resp =>
    match unmarshalData resp.Data with
    | .error err => ⟨out.requests, .error (.plain ("parsing response: " ++ err))⟩
    | .ok data =>
      match userErrorsToError data.ProductUpdate.UserErrors with
      | some err => ⟨out.requests, .error err⟩
      | none => ⟨out.requests, .ok data.ProductUpdate.Product⟩

/-- The keys `UpdateProduct` may place in its input object. -/
def UpdateProduct.keys : List String :=
  ["id", "title", "vendor", "productType", "status", "descriptionHtml", "tags"]

/-! ## Tags and field pairs (`cmd/helpers.go`, `cmd/metaobjects.go`) -/

/-- Index of the first occurrence of `sub` in a list, if any. -/
def indexList (sub : List Char) : List Char → Option Nat
  | [] => if sub = [] then some 0 else none
  | c :: cs =>
    if sub.isPrefixOf (c :: cs) then some 0
    else
      match indexList sub cs with
      | some i => some (i + 1)
      | none => none

/-- Go `strings.Index(s, substr)`: the index of the first occurrence of
`substr` in `s`, or `-1` when there is none. -/
def Index (s substr : String) : Int :=
  match indexList substr.data s.data with
  | some i => (i : Int)
  | none => -1

/-- Go slice expression `s[:i]` for an in-range index. -/
def sliceTo (s : String) (i : Int) : String :=
  ⟨s.data.take i.toNat⟩

/-- The pieces of a list between the occurrences of a separator. -/
def splitList (sep : Char) : List Char → List (List Char)
  | [] => [[]]
  | c :: cs =>
    if c = sep then [] :: splitList sep cs
    else
      match splitList sep cs with
      | piece :: rest => (c :: piece) :: rest
      | [] => [[c]]

/-- Go `strings.Split(s, sep)` for a separator of one character. -/
def Split (s : String) (sep : Char) : List String :=
  (splitList sep s.data).map String.mk

/-- Go `unicode.IsSpace`: the code points with the Unicode White_Space
property. -/
def IsSpace (c : Char) : Bool :=
  let n := c.toNat
  (9 ≤ n && n ≤ 13) || n == 0x20 || n == 0x85 || n == 0xA0 || n == 0x1680 ||
    (0x2000 ≤ n && n ≤ 0x200A) || n == 0x2028 || n == 0x2029 || n == 0x202F ||
    n == 0x205F || n == 0x3000

/-- A list without its leading and trailing white space. -/
def trimList (l : List Char) : List Char :=
  ((l.dropWhile IsSpace).reverse.dropWhile IsSpace).reverse

/-- Go `strings.TrimSpace(s)`. -/
def TrimSpace (s : String) : String :=
  ⟨trimList s.data⟩

/-- splitTags splits a comma-separated tag string into a slice. -/
def splitTags (s : String) : List String :=
  if s = "" then
    []
  else
    let parts := Split s ','
    parts.foldl (fun result p =>
      let p := TrimSpace p
      if p ≠ "" then result ++ [p] else result) []

/-- A metaobject field; `Type_` is the Go field `Type`. -/
structure MetaobjectField where
  Key : String
  Value : String
  Type_ : String
  deriving DecidableEq, Repr

/-- A metaobject; `Type_` is the Go field `Type`. -/
structure Metaobject where
  ID : String
  Handle : String
  Type_ : String
  UpdatedAt : String
  Fields : List MetaobjectField

/-- parseFieldPairs converts ["key=value", "key2=value2"] into MetaobjectField
slice. -/
def parseFieldPairs (pairs : List String) : List MetaobjectField :=
  pairs.foldl (fun fields p =>
    let idx := Index p "="
    if idx < 0 then fields
    else fields ++ [{ Key := sliceTo p idx, Value := sliceFrom p (idx + 1), Type_ := "" }]) []

/-- The field `parseFieldPairs` appends for one string: none without `=`. -/
def fieldsOf (p : String) : List MetaobjectField :=
  if Index p "=" < 0 then []
  else [{ Key := sliceTo p (Index p "="), Value := sliceFrom p (Index p "=" + 1), Type_ := "" }]

/-- The string has no leading and no trailing white space. -/
def NoSurroundingSpace (t : String) : Prop :=
  (∀ c, t.data.head? = some c → IsSpace c = false) ∧
    (∀ c, t.data.getLast? = some c → IsSpace c = false)

/-- A well-formed tag: non-empty, trimmed and free of commas. -/
def IsTag (t : String) : Prop :=
  t ≠ "" ∧ NoSurroundingSpace t ∧ ',' ∉ t.data

/-! ## Metaobject update (`internal/api/metaobjects.go`, `cmd/metaobjects.go`) -/

/-- The `metaobjectUpdate` member of the decoded mutation data. -/
structure MetaobjectUpdatePayload where
  Metaobject : Option Metaobject
  UserErrors : List UserError

/-- The anonymous struct `UpdateMetaobject` decodes `resp.Data` into. -/
structure MetaobjectUpdateData where
  MetaobjectUpdate : MetaobjectUpdatePayload

def UpdateMetaobject.gql : String :=
  "\n\t\tmutation metaobjectUpdate($id: ID!, $metaobject: MetaobjectUpdateInput!) \x7b\n\t\t\tmetaobjectUpdate(id: $id, metaobject: $metaobject) \x7b\n\t\t\t\tmetaobject \x7b id handle type updatedAt fields \x7b key value \x7d \x7d\n\t\t\t\tuserErrors \x7b field message \x7d\n\t\t\t\x7d\n\t\t\x7d"

/-- The variables `UpdateMetaobject` hands to `Do`. -/
def UpdateMetaobject.vars (id : String) (fields : List MetaobjectField) : GoMap :=
  let fieldInputs : List GoValue :=
    fields.map (fun f => .map [("key", .str f.Key), ("value", .str f.Value)])
  [("id", .str (ToGID "Metaobject" id)),
   ("metaobject", .map [("fields", .list fieldInputs)])]

/-- UpdateMetaobject updates an existing metaobject. -/
def Client.UpdateMetaobject (c : Client) (env : Env)
    (unmarshalData : String → Except String MetaobjectUpdateData)
    (id : String) (fields : List MetaobjectField) : Outcome (Option Metaobject) :=
  let out := c.Do env UpdateMetaobject.gql (UpdateMetaobject.vars id fields)
  match out.result with
  | .error err => ⟨out.requests, .error err⟩
  | .ok resp =>
    match unmarshalData resp.Data with
    | .error err => ⟨out.requests, .error (.plain ("parsing response: " ++ err))⟩
    | .ok data =>
      match userErrorsToError data.MetaobjectUpdate.UserErrors with
      | some err => ⟨out.requests, .error err⟩
      | none => ⟨out.requests, .ok data.MetaobjectUpdate.Metaobject⟩

/-- How running a command body ends: it returns, or the Go runtime panics on a
nil pointer dereference after the given requests were made. -/
inductive CmdRun where
  | returned (out : CmdOutcome)
  | panicked (requests : List Request)

/-- The rendering functions of the `internal/output` package that a command
body calls, as parameters: whether JSON output is selected, and the text
`PrintJSON` prints for a value together with the error it returns. -/
structure Output (α : Type) where
  IsJSON : Bool
  PrintJSON : α → String × Option GoError

/-- The `RunE` of `metaobjects update <id>`; `id` is `args[0]` and
`metaobjectUpdateFields` the values of the repeatable flag `--field`. -/
def metaobjectsUpdateCmd.RunE (client : Client) (env : Env)
    (unmarshalData : String → Except String MetaobjectUpdateData)
    (output : Output (Option Metaobject))
    (id : String) (metaobjectUpdateFields : List String) : CmdRun :=
  if metaobjectUpdateFields.length = 0 then
    .returned { requests := [], stdout := "",
                err := some (.plain "at least one --field key=value is required") }
  else
    let fields := parseFieldPairs metaobjectUpdateFields
    let r := client.UpdateMetaobject env unmarshalData id fields
    match r.result with
    | .error err => .returned { requests := r.requests, stdout := "", err := some err }
    | .ok m =>
      if output.IsJSON then
        .returned { requests := r.requests, stdout := (output.PrintJSON m).1,
                    err := (output.PrintJSON m).2 }
      else
        match m with
        | none => .panicked r.requests
        | some m =>
          .returned { requests := r.requests,
                      stdout := "Metaobject updated: " ++ m.Handle ++ "\n" ++
                        "ID: " ++ ShortID m.ID ++ "\n",
                      err := none }

/-- The requests a command run made. -/
def CmdRun.requests : CmdRun → List Request
  | .returned out => out.requests
  | .panicked requests => requests

/-- The error a command run returned, if it returned one. -/
def CmdRun.err : CmdRun → Option GoError
  | .returned out => out.err
  | .panicked _ => none

/-! ## Root pre-run hook and command bodies (`cmd/root.go`, `cmd/shop.go`,
`cmd/products.go`, `cmd/auth.go`) -/

/-- A cobra command as the hook sees it: its `Name()` and the names of its
parents, nearest first. -/
structure Command where
  Name : String
  parents : List String

/-- The root command `info` (tool information). -/
def infoCmd : Command :=
  { Name := "info", parents := ["shopify-admin"] }

/-- The command `shop info` (store information): `Use: "info"` under `shop`. -/
def shopInfoCmd : Command :=
  { Name := "info", parents := ["shop", "shopify-admin"] }

/-- The command `products list`. -/
def productsListCmd : Command :=
  { Name := "list", parents := ["products", "shopify-admin"] }

def isAuthCommand (cmd : Command) : Bool :=
  if cmd.Name = "auth" then true
  else cmd.parents.any (fun name => decide (name = "auth"))

/-- The keys of the map `noAuthCommands`, all mapped to `true`. -/
def noAuthCommands : List String :=
  ["info", "search-syntax", "completion", "help"]

/-- The package variables `client` and `cfg` (`none` is nil). -/
structure Globals where
  client : Option Client
  cfg : Option Config

/-- The hook `rootCmd.PersistentPreRunE`: the error it returns and the package
variables after it ran. -/
def PersistentPreRunE (os : OS) (g : Globals) (cmd : Command) : Option GoError × Globals :=
  if isAuthCommand cmd = true ∨ cmd.Name ∈ noAuthCommands then
    (none, g)
  else
    let r := resolveCredentials os g.cfg
    match r.err with
    | some err => (some err, { g with cfg := r.cfg })
    | none => (none, { client := some (NewClient r.shop r.token), cfg := r.cfg })

/-- The `RunE` of `shop info`, run with the package variable `client`. On a
nil client, `GetShop` calls `Do`, which encodes the payload and then reads
`c.shop` in `c.endpoint()`. `printKeyValue` and `formatTime` are
`output.PrintKeyValue` and `output.FormatTime`. -/
def shopInfoCmd.RunE (client : Option Client) (env : Env)
    (unmarshalData : String → Except String ShopData) (output : Output Shop)
    (printKeyValue : List (String × String) → String) (formatTime : String → String) :
    CmdRun :=
  match client with
  | none =>
    match env.marshal { Query := GetShop.query, Variables := [] } with
    | .error err =>
      .returned { requests := [], stdout := "",
                  err := some (.plain ("encoding request: " ++ err)) }
    | .ok _ => .panicked []
  | some c =>
    let r := c.GetShop env unmarshalData
    match r.result with
    | .error err => .returned { requests := r.requests, stdout := "", err := some err }
    | .ok shop =>
      if output.IsJSON then
        .returned { requests := r.requests, stdout := (output.PrintJSON shop).1,
                    err := (output.PrintJSON shop).2 }
      else
        let planPlus := if shop.Plan.ShopifyPlus then " (Shopify Plus)" else ""
        .returned
          { requests := r.requests,
            stdout := printKeyValue
              [("ID", ShortID shop.ID), ("Name", shop.Name), ("Email", shop.Email),
               ("Domain", shop.MyshopifyDomain), ("Primary URL", shop.PrimaryDomain.URL),
               ("Currency", shop.CurrencyCode), ("Country", shop.CountryCode),
               ("Timezone", shop.TimezoneAbbreviation),
               ("Plan", shop.Plan.DisplayName ++ planPlus),
               ("Created", formatTime shop.CreatedAt)],
            err := none }

/-- The `RunE` of `products create <title>`; `title` is `args[0]`, the other
arguments are the flag variables, and `ToLower` is `strings.ToLower`. The body
reads `p.Title` without a nil check. -/
def productsCreateCmd.RunE (client : Client) (env : Env)
    (unmarshalData : String → Except String ProductCreateData)
    (output : Output (Option Product)) (ToLower : String → String)
    (title productCreateVendor productCreateType productCreateStatus productCreateDescription
      productCreateTags : String) : CmdRun :=
  let r := client.CreateProduct env unmarshalData title productCreateVendor productCreateType
    productCreateStatus productCreateDescription (splitTags productCreateTags)
  match r.result with
  | .error err => .returned { requests := r.requests, stdout := "", err := some err }
  | .ok p =>
    if output.IsJSON then
      .returned { requests := r.requests, stdout := (output.PrintJSON p).1,
                  err := (output.PrintJSON p).2 }
    else
      match p with
      | none => .panicked r.requests
      | some p =>
        .returned
          { requests := r.requests,
            stdout := "Product created: " ++ p.Title ++ "\n" ++
              "ID:     " ++ ShortID p.ID ++ "\n" ++
              "Handle: " ++ p.Handle ++ "\n" ++
              "Status: " ++ ToLower p.Status ++ "\n",
            err := none }

/-- The masked form of a secret for display. Length and slices count
characters: on ASCII input they are the byte length and the byte slices of the
source; on other input the source counts bytes and this definition does not
describe it. -/
def maskOrEmpty (v : String) : String :=
  if v = "" then "(not set)"
  else if v.length ≤ 8 then "***"
  else sliceTo v 4 ++ "..." ++ sliceFrom v ((v.length : Int) - 4)

/-- Path returns the config file path for display purposes. -/
def config.Path (os : OS) : String :=
  match config.configPath os with
  | .ok p => p
  | .error _ => ""

/-- The credential sources `auth status` tells apart. -/
inductive CredentialSource where
  | envVars
  | configFile
  | notAuthenticated
  deriving DecidableEq, Repr

/-- The branch `auth status` takes after loading the config `c`: it reads the
two variables `SHOPIFY_SHOP` and `SHOPIFY_ACCESS_TOKEN` only. -/
def authStatusCmd.source (os : OS) (c : Config) : CredentialSource :=
  let envShop := os.Getenv "SHOPIFY_SHOP"
  let envToken := os.Getenv "SHOPIFY_ACCESS_TOKEN"
  if envShop ≠ "" ∧ envToken ≠ "" then .envVars
  else if c.Shop ≠ "" ∧ c.AccessToken ≠ "" then .configFile
  else .notAuthenticated

/-- The `RunE` of `auth status`. -/
def authStatusCmd.RunE (os : OS) : CmdOutcome :=
  match config.Load os with
  | .error err =>
    { requests := [], stdout := "", err := some (.plain ("loading config: " ++ err)) }
  | .ok c =>
    let head := "Config: " ++ config.Path os ++ "\n\n"
    let envShop := os.Getenv "SHOPIFY_SHOP"
    let envToken := os.Getenv "SHOPIFY_ACCESS_TOKEN"
    match authStatusCmd.source os c with
    | .envVars =>
      { requests := [],
        stdout := head ++ "Source: env vars (take priority over config)\n" ++
          "Shop:   " ++ envShop ++ "\n" ++ "Token:  " ++ maskOrEmpty envToken ++ "\n",
        err := none }
    | .configFile =>
      { requests := [],
        stdout := head ++ "Source: config file\n" ++
          "Shop:   " ++ c.Shop ++ "\n" ++ "Token:  " ++ maskOrEmpty c.AccessToken ++ "\n",
        err := none }
    | .notAuthenticated =>
      { requests := [],
        stdout := head ++ "Status: not authenticated\n" ++
          "\nRun: shopify-admin auth setup <shop> <access-token>\n" ++
          "Or:  export SHOPIFY_SHOP=mystore.myshopify.com\n" ++
          "     export SHOPIFY_ACCESS_TOKEN=shpat_...\n",
        err := none }

/-- An operating system with the given environment and no config file. -/
def noConfigOS (getenv : String → String) : OS :=
  { Getenv := getenv
    UserConfigDir := .ok "/home/user/.config"
    filepathJoin := fun parts => "/".intercalate parts
    ReadFile := fun _ => .error { notExist := true, msg := "no such file or directory" }
    unmarshalConfig := fun _ => .error "unexpected end of JSON input" }

/-- An environment that sets the shop and the token under alias names only. -/
def aliasEnv (name : String) : String :=
  if name = "SHOPIFY_STORE" then "mystore"
  else if name = "SHOPIFY_TOKEN" then "shpat_0123456789abcdef"
  else ""

/-- An output selection: tables, not JSON. -/
def tableOutput (α : Type) : Output α :=
  { IsJSON := false, PrintJSON := fun _ => ("", none) }

def sampleMetaobject : Metaobject :=
  { ID := "gid://shopify/Metaobject/1234567890", Handle := "lookbook", Type_ := "lookbook",
    UpdatedAt := "2026-01-01", Fields := [] }

/-! ## Identifiers placed in requests (`internal/api/*.go`) -/

/-- The places where a resource operation puts an identifier taken from its
caller into the request variables: one per operation and identifier
parameter. -/
inductive IdSlot where
  | getCollection | updateCollection | deleteCollection
  | getCustomer | updateCustomer | deleteCustomer
  | deactivateDiscountCode | deactivateAutomaticDiscount
  | listFulfillmentOrders | createFulfillment
  | listInventoryLevels | adjustInventoryItem | adjustInventoryLocation
  | getMarket
  | listMetafieldsOwner | getMetafield | setMetafieldOwner | deleteMetafield
  | getMetaobject | updateMetaobject | deleteMetaobject
  | getOrder | closeOrder | cancelOrder | markOrderAsPaid
  | getProduct | updateProduct | deleteProduct | getVariant | updateVariant
  | deleteWebhook
  deriving DecidableEq, Repr

/-- The key under which the slot's identifier is sent. -/
def IdSlot.key : IdSlot → String
  | .createFulfillment => "fulfillmentOrderId"
  | .adjustInventoryItem => "inventoryItemId"
  | .adjustInventoryLocation => "locationId"
  | .listMetafieldsOwner => "ownerId"
  | .setMetafieldOwner => "ownerId"
  | .cancelOrder => "orderId"
  | _ => "id"

/-- The value the operation sends for the identifier `id` its caller passed,
as written at the slot in the source. -/
def IdSlot.sent : IdSlot → String → String
  | .getCollection, id => ToGID "Collection" id
  | .updateCollection, id => ToGID "Collection" id
  | .deleteCollection, id => ToGID "Collection" id
  | .getCustomer, id => ToGID "Customer" id
  | .updateCustomer, id => ToGID "Customer" id
  | .deleteCustomer, id => ToGID "Customer" id
  | .deactivateDiscountCode, id => ToGID "DiscountCodeNode" id
  | .deactivateAutomaticDiscount, id => ToGID "DiscountAutomaticNode" id
  | .listFulfillmentOrders, orderID => ToGID "Order" orderID
  | .createFulfillment, fulfillmentOrderID => ToGID "FulfillmentOrder" fulfillmentOrderID
  | .listInventoryLevels, locationID => ToGID "Location" locationID
  | .adjustInventoryItem, inventoryItemID => ToGID "InventoryItem" inventoryItemID
  | .adjustInventoryLocation, locationID => ToGID "Location" locationID
  | .getMarket, id => ToGID "Market" id
  | .listMetafieldsOwner, ownerID => ownerID
  | .getMetafield, id => ToGID "Metafield" id
  | .setMetafieldOwner, ownerID => ownerID
  | .deleteMetafield, id => ToGID "Metafield" id
  | .getMetaobject, id => ToGID "Metaobject" id
  | .updateMetaobject, id => ToGID "Metaobject" id
  | .deleteMetaobject, id => ToGID "Metaobject" id
  | .getOrder, id => ToGID "Order" id
  | .closeOrder, id => ToGID "Order" id
  | .cancelOrder, id => ToGID "Order" id
  | .markOrderAsPaid, id => ToGID "Order" id
  | .getProduct, id => ToGID "Product" id
  | .updateProduct, id => ToGID "Product" id
  | .deleteProduct, id => ToGID "Product" id
  | .getVariant, id => ToGID "ProductVariant" id
  | .updateVariant, id => ToGID "ProductVariant" id
  | .deleteWebhook, id => ToGID "WebhookSubscription" id

/-- The resource type the slot qualifies its identifier with, if it does. -/
def IdSlot.resourceType : IdSlot → Option String
  | .getCollection | .updateCollection | .deleteCollection => some "Collection"
  | .getCustomer | .updateCustomer | .deleteCustomer => some "Customer"
  | .deactivateDiscountCode => some "DiscountCodeNode"
  | .deactivateAutomaticDiscount => some "DiscountAutomaticNode"
  | .listFulfillmentOrders => some "Order"
  | .createFulfillment => some "FulfillmentOrder"
  | .listInventoryLevels | .adjustInventoryLocation => some "Location"
  | .adjustInventoryItem => some "InventoryItem"
  | .getMarket => some "Market"
  | .listMetafieldsOwner | .setMetafieldOwner => none
  | .getMetafield | .deleteMetafield => some "Metafield"
  | .getMetaobject | .updateMetaobject | .deleteMetaobject => some "Metaobject"
  | .getOrder | .closeOrder | .cancelOrder | .markOrderAsPaid => some "Order"
  | .getProduct | .updateProduct | .deleteProduct => some "Product"
  | .getVariant | .updateVariant => some "ProductVariant"
  | .deleteWebhook => some "WebhookSubscription"

/-! ## Lemmas on the string primitives -/

theorem lastIndexList_slash_none (s : List Char) (h : '/' ∉ s) :
    lastIndexList ['/'] s = none := by
  induction s with
  | nil => simp [lastIndexList]
  | cons c cs ih =>
    have hc : '/' ≠ c := fun e => h (e ▸ List.mem_cons_self _ _)
    have hcs : '/' ∉ cs := fun e => h (List.mem_cons_of_mem _ e)
    simp [lastIndexList, ih hcs, List.isPrefixOf, hc]

theorem lastIndexList_slash_append (p s : List Char) (h : '/' ∉ s) :
    lastIndexList ['/'] (p ++ '/' :: s) = some p.length := by
  induction p with
  | nil => simp [lastIndexList, lastIndexList_slash_none s h, List.isPrefixOf]
  | cons c cs ih => simp [lastIndexList, ih]

theorem data_append_slash (pre suf : String) :
    (pre ++ "/" ++ suf).data = pre.data ++ '/' :: suf.data := by
  rcases pre with ⟨p⟩
  rcases suf with ⟨q⟩
  show (p ++ ['/']) ++ q = p ++ '/' :: q
  simp

theorem LastIndex_slash_append (pre suf : String) (h : '/' ∉ suf.data) :
    LastIndex (pre ++ "/" ++ suf) "/" = (pre.length : Int) := by
  unfold LastIndex
  rw [show ("/" : String).data = ['/'] from rfl, data_append_slash,
    lastIndexList_slash_append _ _ h]
  rfl

theorem LastIndex_slash_none (s : String) (h : '/' ∉ s.data) : LastIndex s "/" = -1 := by
  unfold LastIndex
  rw [show ("/" : String).data = ['/'] from rfl, lastIndexList_slash_none _ h]

/-- After a separator followed by a non-empty separator-free suffix, `ShortID`
returns that suffix. -/
theorem ShortID_append (pre suf : String) (h : '/' ∉ suf.data) (hne : suf ≠ "") :
    ShortID (pre ++ "/" ++ suf) = suf := by
  have hlen : 0 < suf.data.length := by
    rcases suf with ⟨l⟩
    cases l with
    | nil => exact absurd rfl hne
    | cons a t => simp
  have hd := data_append_slash pre suf
  have hl : (pre ++ "/" ++ suf).length = pre.data.length + 1 + suf.data.length := by
    show (pre ++ "/" ++ suf).data.length = _
    rw [hd, List.length_append, List.length_cons]; omega
  have hcond : (pre.length : Int) ≥ 0 ∧
      (pre.length : Int) < ((pre ++ "/" ++ suf).length : Int) - 1 := by
    constructor
    · exact Int.ofNat_nonneg _
    · rw [hl]; simp only [String.length]; push_cast; omega
  unfold ShortID
  simp only [LastIndex_slash_append pre suf h]
  rw [if_pos hcond]
  apply String.ext
  have ht : ((pre.length : Int) + 1).toNat = pre.data.length + 1 := by
    simp only [String.length]; omega
  simp only [sliceFrom, ht, hd]
  rw [List.drop_append_eq_append_drop]
  simp

/-- A string ending in the separator is returned unchanged. -/
theorem ShortID_trailing (pre : String) : ShortID (pre ++ "/") = pre ++ "/" := by
  have h0 : '/' ∉ ("" : String).data := by simp
  have hL := LastIndex_slash_append pre "" h0
  have he : pre ++ "/" ++ "" = pre ++ "/" := by
    rcases pre with ⟨p⟩
    apply String.ext
    show (p ++ ['/']) ++ [] = p ++ ['/']
    rw [List.append_nil]
  rw [he] at hL
  have hl : ((pre ++ "/").length : Int) = (pre.length : Int) + 1 := by
    rcases pre with ⟨p⟩
    show (((p ++ ['/']).length : Nat) : Int) = (p.length : Int) + 1
    rw [List.length_append]; rfl
  unfold ShortID
  simp only [hL, hl]
  rw [if_neg]
  omega

/-- A string without the separator is returned unchanged. -/
theorem ShortID_no_slash (s : String) (h : '/' ∉ s.data) : ShortID s = s := by
  unfold ShortID
  simp only [LastIndex_slash_none s h]
  rw [if_neg]
  omega

theorem HasPrefix_gid_of_head (id : String) (c : Char) (cs : List Char)
    (hd : id.data = c :: cs) (hc : c ≠ 'g') : HasPrefix id "gid://" = false := by
  have hg : ("gid://" : String).data = ['g', 'i', 'd', ':', '/', '/'] := rfl
  simp [HasPrefix, hd, hg, List.isPrefixOf, Ne.symm hc]

theorem HasPrefix_gid_append (t : String) : HasPrefix ("gid://" ++ t) "gid://" = true := by
  have hg : ("gid://" : String).data = ['g', 'i', 'd', ':', '/', '/'] := rfl
  simp [HasPrefix, String.data_append, hg, List.isPrefixOf]

theorem IsNumeric.no_slash {n : String} (h : IsNumeric n) : '/' ∉ n.data := by
  intro hm
  have := h.2 '/' hm
  exact absurd this (by decide)

theorem IsNumeric.not_gid {n : String} (h : IsNumeric n) : HasPrefix n "gid://" = false := by
  rcases n with ⟨l⟩
  cases l with
  | nil => exact absurd rfl h.1
  | cons c cs =>
    apply HasPrefix_gid_of_head _ c cs rfl
    intro e
    have := h.2 c (by simp)
    rw [e] at this
    exact absurd this (by decide)

theorem ToGID_of_gid (T id : String) (h : HasPrefix id "gid://" = true) :
    ToGID T id = id := by
  simp [ToGID, h]

theorem ToGID_of_not_gid (T id : String) (h : HasPrefix id "gid://" = false) :
    ToGID T id = "gid://shopify/" ++ T ++ "/" ++ id := by
  simp [ToGID, h]

theorem HasPrefix_ToGID (T id : String) : HasPrefix (ToGID T id) "gid://" = true := by
  cases h : HasPrefix id "gid://"
  · rw [ToGID_of_not_gid T id h]
    have e : "gid://shopify/" ++ T ++ "/" ++ id = "gid://" ++ ("shopify/" ++ T ++ "/" ++ id) := by
      apply String.ext; simp [String.data_append]
    rw [e]; exact HasPrefix_gid_append _
  · rw [ToGID_of_gid T id h]; exact h

theorem String.length_pos_of_ne_empty {s : String} (h : s ≠ "") : 0 < s.length := by
  rcases s with ⟨l⟩
  cases l with
  | nil => exact absurd rfl h
  | cons a t => exact Nat.succ_pos _

theorem MatchesQualifiedPattern.starts_gid {id : String} (h : MatchesQualifiedPattern id) :
    HasPrefix id "gid://" = true := by
  obtain ⟨ns, rt, digits, -, -, -, rfl⟩ := h
  have e : "gid://" ++ ns ++ "/" ++ rt ++ "/" ++ digits
      = "gid://" ++ (ns ++ "/" ++ rt ++ "/" ++ digits) := by
    simp only [String.append_assoc]
  rw [e]; exact HasPrefix_gid_append _

theorem MatchesQualifiedPattern.length_ge {id : String} (h : MatchesQualifiedPattern id) :
    11 ≤ id.length := by
  obtain ⟨ns, rt, digits, hns, hrt, hd, rfl⟩ := h
  have h1 := String.length_pos_of_ne_empty hns.1
  have h2 := String.length_pos_of_ne_empty hrt.1
  have h3 := String.length_pos_of_ne_empty hd.1
  have h6 : ("gid://" : String).length = 6 := rfl
  have hs : ("/" : String).length = 1 := rfl
  simp only [String.length_append, h6, hs]
  omega

/-! ## Identifier codec: the claims -/

/-- C6: for every resource type `T` and every numeric string `n` (non-empty,
decimal digits only), `ShortID (ToGID T n) = n`. -/
theorem ShortID_ToGID_roundtrip (T n : String) (h : IsNumeric n) :
    ShortID (ToGID T n) = n := by
  rw [ToGID_of_not_gid T n h.not_gid]
  exact ShortID_append ("gid://shopify/" ++ T) n h.no_slash h.1

theorem ShortID_ToGID_roundtrip_witness :
    IsNumeric "1234567890" ∧ ShortID (ToGID "Product" "1234567890") = "1234567890" :=
  ⟨⟨by decide, by decide⟩, ShortID_ToGID_roundtrip "Product" "1234567890" ⟨by decide, by decide⟩⟩

/-- C7: qualification is idempotent: for all resource types `T`, `T'` and every
string `id`, qualifying an already qualified identifier returns it unchanged;
in particular with `T' = T`. -/
theorem ToGID_idempotent (T T' id : String) :
    ToGID T' (ToGID T id) = ToGID T id ∧ ToGID T (ToGID T id) = ToGID T id :=
  ⟨ToGID_of_gid _ _ (HasPrefix_ToGID T id), ToGID_of_gid _ _ (HasPrefix_ToGID T id)⟩

/-- C8, as stated, fails: `gid://oops` does not match the fully-qualified
pattern, yet `ToGID` returns it unchanged instead of embedding it. -/
theorem ToGID_pattern_counterexample :
    ¬ MatchesQualifiedPattern "gid://oops" ∧
      ToGID "Product" "gid://oops" = "gid://oops" ∧
      ToGID "Product" "gid://oops" ≠ "gid://shopify/" ++ "Product" ++ "/" ++ "gid://oops" := by
  refine ⟨fun h => ?_, by decide, by decide⟩
  have := h.length_ge
  exact absurd this (by decide)

/-- C8, amended: `ToGID T id = id` when `id` starts with `gid://` (so in
particular when it matches the fully-qualified pattern), and otherwise
`ToGID T id` is `gid://shopify/`, `T`, `/` and `id` verbatim. -/
theorem ToGID_spec (T id : String) :
    (HasPrefix id "gid://" = true → ToGID T id = id) ∧
    (MatchesQualifiedPattern id → ToGID T id = id) ∧
    (HasPrefix id "gid://" = false → ToGID T id = "gid://shopify/" ++ T ++ "/" ++ id) :=
  ⟨ToGID_of_gid T id, fun h => ToGID_of_gid T id h.starts_gid, ToGID_of_not_gid T id⟩

theorem ToGID_spec_witness :
    ToGID "Order" "gid://shopify/Product/42" = "gid://shopify/Product/42" ∧
    MatchesQualifiedPattern "gid://shopify/Product/42" ∧
    ToGID "Product" "1234567890" = "gid://shopify/Product/1234567890" :=
  have hm : MatchesQualifiedPattern "gid://shopify/Product/42" :=
    ⟨"shopify", "Product", "42", ⟨by decide, by decide⟩, ⟨by decide, by decide⟩,
      ⟨by decide, by decide⟩, by decide⟩
  ⟨(ToGID_spec "Order" "gid://shopify/Product/42").2.1 hm, hm,
    (ToGID_spec "Product" "1234567890").2.2 (by decide)⟩

/-- C9, as stated, fails: the substring after the last separator of
`gid://shopify/Product/` is empty, yet `ShortID` returns the whole input. -/
theorem ShortID_trailing_counterexample :
    IsAfterLastSlash "gid://shopify/Product/" "" ∧
      ShortID "gid://shopify/Product/" = "gid://shopify/Product/" ∧
      ShortID "gid://shopify/Product/" ≠ "" :=
  ⟨⟨"gid://shopify/Product", by decide, by decide⟩, by decide, by decide⟩

/-- C9, amended: when `s` contains a separator and does not end with it,
`ShortID s` is the substring after the last separator; when `s` ends with the
separator or contains none, `ShortID s = s`. -/
theorem ShortID_spec (s : String) :
    (∀ suf : String, suf ≠ "" → IsAfterLastSlash s suf → ShortID s = suf) ∧
    (IsAfterLastSlash s "" → ShortID s = s) ∧
    ('/' ∉ s.data → ShortID s = s) := by
  refine ⟨?_, ?_, ShortID_no_slash s⟩
  · rintro suf hne ⟨pre, rfl, hs⟩
    exact ShortID_append pre suf hs hne
  · rintro ⟨pre, rfl, -⟩
    have he : pre ++ "/" ++ "" = pre ++ "/" := by
      rcases pre with ⟨p⟩
      apply String.ext
      show (p ++ ['/']) ++ [] = p ++ ['/']
      rw [List.append_nil]
    rw [he]; exact ShortID_trailing pre

theorem ShortID_spec_witness :
    ShortID "gid://shopify/Product/1234567890" = "1234567890" ∧
    ShortID "gid://shopify/Product/" = "gid://shopify/Product/" ∧
    ShortID "1234567890" = "1234567890" :=
  ⟨(ShortID_spec "gid://shopify/Product/1234567890").1 "1234567890" (by decide)
      ⟨"gid://shopify/Product", by decide, by decide⟩,
    (ShortID_spec "gid://shopify/Product/").2.1 ⟨"gid://shopify/Product", by decide, by decide⟩,
    (ShortID_spec "1234567890").2.2 (by decide)⟩

/-! ## Transport client: the claims -/

/-- C1: when the HTTP response has status at least 400, `Do` returns no payload
and the `ShopifyError` with that status and message `HTTP <status>: <body>`,
for every body and whatever the JSON decoder would make of it. -/
theorem Do_transport_error (c : Client) (env : Env) (query : String) (vars : GoMap)
    (data : String) (status : Int) (body : String)
    (u : String → Except String GraphQLResponse)
    (hm : env.marshal { Query := query, Variables := vars } = .ok data)
    (hn : env.newRequestError "POST" c.endpoint = none)
    (hr : env.roundTrip (c.buildRequest data) = .ok { StatusCode := status, Body := .ok body })
    (hs : status ≥ 400) :
    (c.Do { env with unmarshal := u } query vars).result =
      .error (.shopify { StatusCode := status,
                         Message := "HTTP " ++ formatInt status ++ ": " ++ body }) := by
  simp only [Client.Do, hm, hn, hr, if_pos hs]

theorem Do_transport_error_witness :
    ((NewClient "mystore" "token").Do
        (fixedEnv 500 "\x7b\"errors\":[\x7b\"message\":\"boom\"\x7d]\x7d" (.ok envelopeWithErrors))
        "query" []).result =
      .error (.shopify { StatusCode := 500,
                         Message := "HTTP 500: \x7b\"errors\":[\x7b\"message\":\"boom\"\x7d]\x7d" }) :=
  Do_transport_error (NewClient "mystore" "token")
    (fixedEnv 500 "\x7b\"errors\":[\x7b\"message\":\"boom\"\x7d]\x7d" (.ok envelopeWithErrors))
    "query" [] "query" 500 "\x7b\"errors\":[\x7b\"message\":\"boom\"\x7d]\x7d"
    (fun _ => .ok envelopeWithErrors) rfl rfl rfl (by decide)

/-- C2: when the status is below 400 and the body decodes as an envelope with a
non-empty `errors` array, `Do` returns no payload and an error whose message is
the messages of all entries, in order, joined with `; `, whatever `data` is. -/
theorem Do_protocol_error (c : Client) (env : Env) (query : String) (vars : GoMap)
    (data : String) (status : Int) (body : String) (envelope : GraphQLResponse)
    (hm : env.marshal { Query := query, Variables := vars } = .ok data)
    (hn : env.newRequestError "POST" c.endpoint = none)
    (hr : env.roundTrip (c.buildRequest data) = .ok { StatusCode := status, Body := .ok body })
    (hs : status < 400)
    (hu : env.unmarshal body = .ok envelope)
    (he : envelope.Errors ≠ []) :
    (c.Do env query vars).result =
        .error (.shopify { StatusCode := 200,
                           Message := Join (envelope.Errors.map (fun e => e.Message)) "; " }) ∧
      ∀ err, (c.Do env query vars).result = .error err →
        err.Error = Join (envelope.Errors.map (fun e => e.Message)) "; " := by
  have hlen : envelope.Errors.length > 0 := List.length_pos.mpr he
  have hres : (c.Do env query vars).result =
      .error (.shopify { StatusCode := 200,
                         Message := Join (envelope.Errors.map (fun e => e.Message)) "; " }) := by
    simp only [Client.Do, hm, hn, hr, if_neg (not_le.mpr hs), hu, if_pos hlen]
  refine ⟨hres, fun err herr => ?_⟩
  rw [hres] at herr
  cases herr
  rfl

theorem Do_protocol_error_witness :
    ((NewClient "mystore" "token").Do (fixedEnv 200 "body" (.ok envelopeWithErrors))
        "query" []).result =
      .error (.shopify { StatusCode := 200, Message := "Field missing; Access denied" }) :=
  (Do_protocol_error (NewClient "mystore" "token") (fixedEnv 200 "body" (.ok envelopeWithErrors))
    "query" [] "query" 200 "body" envelopeWithErrors rfl rfl rfl (by decide) rfl
    (by simp [envelopeWithErrors])).1

/-- C3: `Do` returns a payload with a nil error exactly when the request was
encoded and built, the round trip and the body read succeeded with status below
400, the body decodes as an envelope and the envelope has no errors; the
payload returned is then that envelope, its `data` unchanged. -/
theorem Do_ok_iff (c : Client) (env : Env) (query : String) (vars : GoMap)
    (resp : GraphQLResponse) :
    (c.Do env query vars).result = .ok resp ↔
      ∃ (data : String) (status : Int) (body : String) (envelope : GraphQLResponse),
        env.marshal { Query := query, Variables := vars } = .ok data ∧
        env.newRequestError "POST" c.endpoint = none ∧
        env.roundTrip (c.buildRequest data) = .ok { StatusCode := status, Body := .ok body } ∧
        status < 400 ∧
        env.unmarshal body = .ok envelope ∧
        envelope.Errors = [] ∧
        resp = envelope ∧ resp.Data = envelope.Data := by
  constructor
  · intro h
    unfold Client.Do at h
    simp only at h
    split at h
    · cases h
    · rename_i data hm
      split at h
      · cases h
      · rename_i hn
        split at h
        · cases h
        · rename_i r hr
          split at h
          · cases h
          · rename_i body hb
            split at h
            · cases h
            · rename_i hs
              split at h
              · cases h
              · rename_i envelope hu
                split at h
                · cases h
                · rename_i he
                  refine ⟨data, r.StatusCode, body, envelope, hm, hn, ?_, not_le.mp hs, hu, ?_, ?_, ?_⟩
                  · rw [hr]
                    rcases r with ⟨st, b⟩
                    simp only at hb
                    rw [hb]
                  · exact List.length_eq_zero.mp (Nat.eq_zero_of_not_pos he)
                  · cases h; rfl
                  · cases h; rfl
  · rintro ⟨data, status, body, envelope, hm, hn, hr, hs, hu, he, rfl, -⟩
    have hlen : ¬ resp.Errors.length > 0 := by rw [he]; simp
    simp only [Client.Do, hm, hn, hr, if_neg (not_le.mpr hs), hu, if_neg hlen]

theorem Do_ok_iff_witness :
    ((NewClient "mystore" "token").Do (fixedEnv 200 "body" (.ok envelopeOk)) "query" []).result =
      .ok envelopeOk :=
  (Do_ok_iff (NewClient "mystore" "token") (fixedEnv 200 "body" (.ok envelopeOk)) "query" []
    envelopeOk).mpr ⟨"query", 200, "body", envelopeOk, rfl, rfl, rfl, by decide, rfl, rfl, rfl, rfl⟩

/-! ## Domain errors: the claims -/

theorem userErrorsToError_of_ne_nil (errs : List UserError) (h : errs ≠ []) :
    userErrorsToError errs = some (.plain (Join (errs.map (fun e => e.Message)) "; ")) := by
  have hlen : ¬ errs.length = 0 := fun e => h (List.length_eq_zero.mp e)
  simp only [userErrorsToError, if_neg hlen]

/-- C4: when `Do` succeeds and the decoded `productCreate` payload has a
non-empty `userErrors` list, `CreateProduct` returns no product and the error
whose message is the joined user-error messages, whatever product the payload
carries. -/
theorem CreateProduct_userErrors (c : Client) (env : Env)
    (unmarshalData : String → Except String ProductCreateData)
    (title vendor productType status descriptionHTML : String) (tags : List String)
    (resp : GraphQLResponse) (data : ProductCreateData)
    (hdo : (c.Do env CreateProduct.gql
      [("input", .map (CreateProduct.input env title vendor productType status
        descriptionHTML tags))]).result = .ok resp)
    (hdec : unmarshalData resp.Data = .ok data)
    (hue : data.ProductCreate.UserErrors ≠ []) :
    (c.CreateProduct env unmarshalData title vendor productType status descriptionHTML
        tags).result =
      .error (.plain (Join (data.ProductCreate.UserErrors.map (fun e => e.Message)) "; ")) := by
  simp only [Client.CreateProduct, hdo, hdec, userErrorsToError_of_ne_nil _ hue]

theorem CreateProduct_userErrors_witness :
    sampleCreateData.ProductCreate.Product = some sampleProduct ∧
    ((NewClient "mystore" "token").CreateProduct (fixedEnv 200 "body" (.ok envelopeOk))
        (fun _ => .ok sampleCreateData) "Shirt" "" "" "active" "" []).result =
      .error (.plain "Title is blank; Handle is taken") :=
  ⟨rfl, CreateProduct_userErrors (NewClient "mystore" "token")
    (fixedEnv 200 "body" (.ok envelopeOk)) (fun _ => .ok sampleCreateData)
    "Shirt" "" "" "active" "" [] envelopeOk sampleCreateData rfl rfl
    (by simp [sampleCreateData])⟩

/-- C5: `userErrorsToError errs` is nil exactly when `errs` is empty; for a
non-empty `errs` it is the error whose message is the entries' messages, in
order, joined with `; `; lists with the same messages give the same error,
whatever their field paths. -/
theorem userErrorsToError_spec (errs : List UserError) :
    (userErrorsToError errs = none ↔ errs = []) ∧
    (errs ≠ [] → ∃ err, userErrorsToError errs = some err ∧
      err.Error = Join (errs.map (fun e => e.Message)) "; ") ∧
    (∀ errs' : List UserError,
      errs'.map (fun e => e.Message) = errs.map (fun e => e.Message) →
        userErrorsToError errs' = userErrorsToError errs) := by
  refine ⟨⟨fun h => ?_, fun h => ?_⟩, fun h => ?_, fun errs' h => ?_⟩
  · by_contra hne
    rw [userErrorsToError_of_ne_nil errs hne] at h
    cases h
  · rw [h]; rfl
  · exact ⟨_, userErrorsToError_of_ne_nil errs h, rfl⟩
  · have hl : errs'.length = errs.length := by
      have := congrArg List.length h
      simpa using this
    simp only [userErrorsToError, h, hl]

theorem userErrorsToError_spec_witness :
    userErrorsToError [] = none ∧
    (∃ err, userErrorsToError [{ Field := ["title"], Message := "Title is blank" },
                               { Field := ["handle"], Message := "Handle is taken" }] = some err ∧
      err.Error = "Title is blank; Handle is taken") ∧
    userErrorsToError [{ Field := [], Message := "Title is blank" }] =
      userErrorsToError [{ Field := ["input", "title"], Message := "Title is blank" }] :=
  ⟨(userErrorsToError_spec []).1.2 rfl,
    (userErrorsToError_spec [{ Field := ["title"], Message := "Title is blank" },
      { Field := ["handle"], Message := "Handle is taken" }]).2.1 (by simp),
    (userErrorsToError_spec [{ Field := ["input", "title"], Message := "Title is blank" }]).2.2
      [{ Field := [], Message := "Title is blank" }] rfl⟩

/-! ## Cursor forwarding: the claim -/

theorem GoMap.get_set_self (m : GoMap) (k : String) (v : GoValue) :
    (m.set k v).get k = some v := by
  induction m with
  | nil => simp [GoMap.set, GoMap.get]
  | cons p rest ih =>
    rcases p with ⟨k', v'⟩
    by_cases h : k' = k
    · simp [GoMap.set, GoMap.get, h]
    · simp [GoMap.set, GoMap.get, h, ih]

theorem GoMap.get_set_ne (m : GoMap) (k k' : String) (v : GoValue) (h : k' ≠ k) :
    (m.set k' v).get k = m.get k := by
  induction m with
  | nil => simp [GoMap.set, GoMap.get, h]
  | cons p rest ih =>
    rcases p with ⟨k₀, v₀⟩
    by_cases h0 : k₀ = k'
    · have : ¬ k₀ = k := fun e => h (h0 ▸ e)
      simp [GoMap.set, GoMap.get, h0, h]
    · by_cases h1 : k₀ = k
      · subst h1
        simp [GoMap.set, GoMap.get, h0]
      · simp [GoMap.set, GoMap.get, h0, h1, ih]

/-- A map without the cursor key, given the cursor when it is non-empty and
then any key other than the cursor key, forwards the cursor. -/
theorem cursorForwarded_of_base (base : GoMap) (after : String)
    (hb : base.get "after" = none) :
    CursorForwarded (if after ≠ "" then base.set "after" (.str after) else base) after := by
  by_cases ha : after = ""
  · simp [CursorForwarded, GoMap.contains, ha, hb]
  · simp [CursorForwarded, GoMap.contains, ha, GoMap.get_set_self]

theorem cursorForwarded_then_query (m : GoMap) (after query : String)
    (h : CursorForwarded m after) :
    CursorForwarded (if query ≠ "" then m.set "query" (.str query) else m) after := by
  by_cases hq : query = ""
  · simpa [hq] using h
  · have hne : ("query" : String) ≠ "after" := by decide
    simpa [hq, CursorForwarded, GoMap.contains, GoMap.get_set_ne _ _ _ _ hne] using h

/-- C10: for each list operation that takes a cursor and all its arguments, the
variable map handed to `Do` contains the key `after` exactly when the cursor
argument is non-empty, and then holds exactly that cursor. -/
theorem list_vars_cursor_forwarded (first : Int) (after query metaobjectType : String) :
    CursorForwarded (ListProducts.vars first after query) after ∧
    CursorForwarded (ListOrders.vars first after query) after ∧
    CursorForwarded (ListCustomers.vars first after query) after ∧
    CursorForwarded (ListCollections.vars first after query) after ∧
    CursorForwarded (ListInventoryItems.vars first after query) after ∧
    CursorForwarded (ListDiscounts.vars first after query) after ∧
    CursorForwarded (ListWebhooks.vars first after) after ∧
    CursorForwarded (ListMetaobjects.vars metaobjectType first after) after := by
  have h1 : CursorForwarded
      (if after ≠ "" then GoMap.set [("first", .int first)] "after" (.str after)
        else [("first", .int first)]) after :=
    cursorForwarded_of_base _ after (by simp [GoMap.get])
  have h2 := cursorForwarded_then_query _ after query h1
  have h3 : CursorForwarded
      (if after ≠ "" then
          GoMap.set [("type", .str metaobjectType), ("first", .int first)] "after" (.str after)
        else [("type", .str metaobjectType), ("first", .int first)]) after :=
    cursorForwarded_of_base _ after (by simp [GoMap.get])
  exact ⟨h2, h2, h2, h2, h2, h2, h1, h3⟩

theorem list_vars_cursor_forwarded_witness :
    (ListProducts.vars 50 "" "").get "after" = none ∧
    (ListProducts.vars 50 "eyJsYXN0X2lkIjo0fQ==" "status:active").get "after"
      = some (.str "eyJsYXN0X2lkIjo0fQ==") ∧
    (ListMetaobjects.vars "lookbook" 50 "eyJsYXN0X2lkIjo0fQ==").get "after"
      = some (.str "eyJsYXN0X2lkIjo0fQ==") := by
  have h0 := (list_vars_cursor_forwarded 50 "" "" "lookbook").1
  have h1 := (list_vars_cursor_forwarded 50 "eyJsYXN0X2lkIjo0fQ==" "status:active" "lookbook")
  refine ⟨?_, h1.1.2 (by decide), h1.2.2.2.2.2.2.2.2 (by decide)⟩
  have := h0.1
  simp only [GoMap.contains, ne_eq, not_true_eq_false, iff_false, Bool.not_eq_true,
    Option.not_isSome, Option.isNone_iff_eq_none] at this
  exact this

/-! ## Requests issued by `Do` and by the discount operations -/

/-- Every call of `Do` either fails before reaching the transport, or hands it
exactly the one request built from the encoded payload. -/
theorem Do_requests_cases (c : Client) (env : Env) (query : String) (vars : GoMap) :
    ((c.Do env query vars).requests = [] ∧ ∃ err, (c.Do env query vars).result = .error err) ∨
      ∃ data, env.marshal { Query := query, Variables := vars } = .ok data ∧
        env.newRequestError "POST" c.endpoint = none ∧
        (c.Do env query vars).requests = [c.buildRequest data] := by
  unfold Client.Do
  simp only
  split
  · exact Or.inl ⟨rfl, _, rfl⟩
  · rename_i data hm
    split
    · exact Or.inl ⟨rfl, _, rfl⟩
    · rename_i hn
      refine Or.inr ⟨data, hm, hn, ?_⟩
      split
      · rfl
      · split
        · rfl
        · split
          · rfl
          · split
            · rfl
            · split <;> rfl

theorem Do_requests_of_sent (c : Client) (env : Env) (query : String) (vars : GoMap)
    (data : String) (hm : env.marshal { Query := query, Variables := vars } = .ok data)
    (hn : env.newRequestError "POST" c.endpoint = none) :
    (c.Do env query vars).requests = [c.buildRequest data] := by
  rcases Do_requests_cases c env query vars with ⟨hr, -⟩ | ⟨d, hd, -, hr⟩
  · exfalso
    revert hr
    unfold Client.Do
    simp only [hm, hn]
    split
    · simp
    · split
      · simp
      · split
        · simp
        · split
          · simp
          · split <;> simp
  · rw [hm] at hd; cases hd; exact hr

theorem Do_requests_length_le (c : Client) (env : Env) (query : String) (vars : GoMap) :
    (c.Do env query vars).requests.length ≤ 1 := by
  rcases Do_requests_cases c env query vars with ⟨h, -⟩ | ⟨data, -, -, h⟩ <;> rw [h] <;> simp

/-- A call of `Do` that returns a payload made exactly one request. -/
theorem Do_requests_of_ok (c : Client) (env : Env) (query : String) (vars : GoMap)
    (resp : GraphQLResponse) (h : (c.Do env query vars).result = .ok resp) :
    ∃ data, env.marshal { Query := query, Variables := vars } = .ok data ∧
      (c.Do env query vars).requests = [c.buildRequest data] := by
  rcases Do_requests_cases c env query vars with ⟨-, err, he⟩ | ⟨data, hm, -, hr⟩
  · rw [he] at h; cases h
  · exact ⟨data, hm, hr⟩

theorem DeactivateDiscountCode_requests (c : Client) (env : Env)
    (u : String → Except String DiscountCodeDeactivateData) (id : String) :
    (c.DeactivateDiscountCode env u id).requests =
      (c.Do env DeactivateDiscountCode.gql
        [("id", .str (ToGID "DiscountCodeNode" id))]).requests := by
  unfold Client.DeactivateDiscountCode
  simp only
  split
  · rfl
  · split
    · rfl
    · split <;> rfl

theorem DeactivateAutomaticDiscount_requests (c : Client) (env : Env)
    (u : String → Except String DiscountAutomaticDeactivateData) (id : String) :
    (c.DeactivateAutomaticDiscount env u id).requests =
      (c.Do env DeactivateAutomaticDiscount.gql
        [("id", .str (ToGID "DiscountAutomaticNode" id))]).requests := by
  unfold Client.DeactivateAutomaticDiscount
  simp only
  split
  · rfl
  · split
    · rfl
    · split <;> rfl

/-- A successful `DeactivateDiscountCode` rests on a successful `Do`. -/
theorem DeactivateDiscountCode_ok_Do (c : Client) (env : Env)
    (u : String → Except String DiscountCodeDeactivateData) (id : String)
    (h : (c.DeactivateDiscountCode env u id).result = .ok ()) :
    ∃ resp, (c.Do env DeactivateDiscountCode.gql
      [("id", .str (ToGID "DiscountCodeNode" id))]).result = .ok resp := by
  unfold Client.DeactivateDiscountCode at h
  simp only at h
  split at h
  · cases h
  · rename_i resp hr
    exact ⟨resp, hr⟩

/-! ## Discount deactivation: the claims -/

/-- C11: in `discounts deactivate`, when `DeactivateDiscountCode id` fails with
any error and `DeactivateAutomaticDiscount id` succeeds, the command returns no
error. -/
theorem discountsDeactivate_fallback_ok (client : Client) (env : Env)
    (unmarshalCode : String → Except String DiscountCodeDeactivateData)
    (unmarshalAutomatic : String → Except String DiscountAutomaticDeactivateData)
    (id : String) (e1 : GoError)
    (h1 : (client.DeactivateDiscountCode env unmarshalCode id).result = .error e1)
    (h2 : (client.DeactivateAutomaticDiscount env unmarshalAutomatic id).result = .ok ()) :
    (discountsDeactivateCmd.RunE client env unmarshalCode unmarshalAutomatic id).err = none := by
  simp only [discountsDeactivateCmd.RunE, h1, h2]

set_option maxRecDepth 20000 in
theorem discountsDeactivate_fallback_ok_witness :
    (∃ e1, ((NewClient "mystore" "token").DeactivateDiscountCode codeFailsEnv
        (fun _ => .ok ⟨⟨[]⟩⟩) "1234567890").result = .error e1) ∧
    (discountsDeactivateCmd.RunE (NewClient "mystore" "token") codeFailsEnv
        (fun _ => .ok ⟨⟨[]⟩⟩) (fun _ => .ok ⟨⟨[]⟩⟩) "1234567890").err = none :=
  ⟨⟨_, rfl⟩, discountsDeactivate_fallback_ok (NewClient "mystore" "token") codeFailsEnv
    (fun _ => .ok ⟨⟨[]⟩⟩) (fun _ => .ok ⟨⟨[]⟩⟩) "1234567890" _ rfl rfl⟩

/-- C12: in `discounts deactivate`, when `DeactivateDiscountCode id` fails with
`e1` and `DeactivateAutomaticDiscount id` fails with `e2`, the command fails
with the single error `code discount: <e1>; automatic discount: <e2>`, whose
message contains both messages. -/
theorem discountsDeactivate_both_fail (client : Client) (env : Env)
    (unmarshalCode : String → Except String DiscountCodeDeactivateData)
    (unmarshalAutomatic : String → Except String DiscountAutomaticDeactivateData)
    (id : String) (e1 e2 : GoError)
    (h1 : (client.DeactivateDiscountCode env unmarshalCode id).result = .error e1)
    (h2 : (client.DeactivateAutomaticDiscount env unmarshalAutomatic id).result = .error e2) :
    (discountsDeactivateCmd.RunE client env unmarshalCode unmarshalAutomatic id).err =
        some (.plain
          ("code discount: " ++ e1.Error ++ "; automatic discount: " ++ e2.Error)) ∧
      (∃ pre suf, "code discount: " ++ e1.Error ++ "; automatic discount: " ++ e2.Error
        = pre ++ e1.Error ++ suf) ∧
      (∃ pre suf, "code discount: " ++ e1.Error ++ "; automatic discount: " ++ e2.Error
        = pre ++ e2.Error ++ suf) := by
  refine ⟨by simp only [discountsDeactivateCmd.RunE, h1, h2], ?_, ?_⟩
  · exact ⟨"code discount: ", "; automatic discount: " ++ e2.Error, by
      simp only [String.append_assoc]⟩
  · exact ⟨"code discount: " ++ e1.Error ++ "; automatic discount: ", "", by
      simp only [String.append_empty]⟩

theorem discountsDeactivate_both_fail_witness :
    (discountsDeactivateCmd.RunE (NewClient "mystore" "token")
        (fixedEnv 404 "Not Found" (.error "unexpected end of JSON input"))
        (fun _ => .ok ⟨⟨[]⟩⟩) (fun _ => .ok ⟨⟨[]⟩⟩) "1234567890").err =
      some (.plain "code discount: HTTP 404: Not Found; automatic discount: HTTP 404: Not Found") :=
  (discountsDeactivate_both_fail (NewClient "mystore" "token")
    (fixedEnv 404 "Not Found" (.error "unexpected end of JSON input"))
    (fun _ => .ok ⟨⟨[]⟩⟩) (fun _ => .ok ⟨⟨[]⟩⟩) "1234567890"
    (.shopify ⟨404, "HTTP 404: Not Found"⟩) (.shopify ⟨404, "HTTP 404: Not Found"⟩) rfl rfl).1

/-- C13: `discounts deactivate` attempts the code-discount deactivation first
and the automatic-discount deactivation only after the former failed: its
requests are those of `DeactivateDiscountCode`, followed by those of
`DeactivateAutomaticDiscount` when the first result is an error; when
`DeactivateDiscountCode` succeeds exactly one request is made, the
code-discount mutation; at most two requests are made in any case. -/
theorem discountsDeactivate_requests (client : Client) (env : Env)
    (unmarshalCode : String → Except String DiscountCodeDeactivateData)
    (unmarshalAutomatic : String → Except String DiscountAutomaticDeactivateData)
    (id : String) :
    (∀ e1, (client.DeactivateDiscountCode env unmarshalCode id).result = .error e1 →
      (discountsDeactivateCmd.RunE client env unmarshalCode unmarshalAutomatic id).requests =
        (client.DeactivateDiscountCode env unmarshalCode id).requests ++
          (client.DeactivateAutomaticDiscount env unmarshalAutomatic id).requests) ∧
    ((client.DeactivateDiscountCode env unmarshalCode id).result = .ok () →
      (discountsDeactivateCmd.RunE client env unmarshalCode unmarshalAutomatic id).requests =
          (client.DeactivateDiscountCode env unmarshalCode id).requests ∧
        ∃ data, env.marshal { Query := DeactivateDiscountCode.gql,
                              Variables := [("id", .str (ToGID "DiscountCodeNode" id))] }
            = .ok data ∧
          (discountsDeactivateCmd.RunE client env unmarshalCode unmarshalAutomatic id).requests =
            [client.buildRequest data]) ∧
    (discountsDeactivateCmd.RunE client env unmarshalCode unmarshalAutomatic id).requests.length
      ≤ 2 := by
  have hl1 : (client.DeactivateDiscountCode env unmarshalCode id).requests.length ≤ 1 := by
    rw [DeactivateDiscountCode_requests]; exact Do_requests_length_le _ _ _ _
  have hl2 : (client.DeactivateAutomaticDiscount env unmarshalAutomatic id).requests.length ≤ 1 := by
    rw [DeactivateAutomaticDiscount_requests]; exact Do_requests_length_le _ _ _ _
  refine ⟨fun e1 h1 => ?_, fun h1 => ?_, ?_⟩
  · unfold discountsDeactivateCmd.RunE
    simp only [h1]
    split <;> rfl
  · have hreq : (discountsDeactivateCmd.RunE client env unmarshalCode unmarshalAutomatic
        id).requests = (client.DeactivateDiscountCode env unmarshalCode id).requests := by
      simp only [discountsDeactivateCmd.RunE, h1]
    refine ⟨hreq, ?_⟩
    obtain ⟨resp, hdo⟩ := DeactivateDiscountCode_ok_Do client env unmarshalCode id h1
    obtain ⟨data, hm, hr⟩ := Do_requests_of_ok client env _ _ resp hdo
    exact ⟨data, hm, by rw [hreq, DeactivateDiscountCode_requests, hr]⟩
  · unfold discountsDeactivateCmd.RunE
    simp only
    split
    · split <;> simp only [List.length_append] <;> omega
    · simp only; omega

set_option maxRecDepth 20000 in
theorem discountsDeactivate_requests_witness :
    (discountsDeactivateCmd.RunE (NewClient "mystore" "token")
        (fixedEnv 200 "body" (.ok envelopeOk)) (fun _ => .ok ⟨⟨[]⟩⟩) (fun _ => .ok ⟨⟨[]⟩⟩)
        "1234567890").requests =
      [(NewClient "mystore" "token").buildRequest DeactivateDiscountCode.gql] ∧
    (discountsDeactivateCmd.RunE (NewClient "mystore" "token") codeFailsEnv
        (fun _ => .ok ⟨⟨[]⟩⟩) (fun _ => .ok ⟨⟨[]⟩⟩) "1234567890").requests =
      [(NewClient "mystore" "token").buildRequest DeactivateDiscountCode.gql,
       (NewClient "mystore" "token").buildRequest DeactivateAutomaticDiscount.gql] := by
  constructor
  · obtain ⟨-, data, hm, hr⟩ := (discountsDeactivate_requests (NewClient "mystore" "token")
      (fixedEnv 200 "body" (.ok envelopeOk)) (fun _ => .ok ⟨⟨[]⟩⟩) (fun _ => .ok ⟨⟨[]⟩⟩)
      "1234567890").2.1 rfl
    cases hm
    exact hr
  · exact ((discountsDeactivate_requests (NewClient "mystore" "token") codeFailsEnv
      (fun _ => .ok ⟨⟨[]⟩⟩) (fun _ => .ok ⟨⟨[]⟩⟩) "1234567890").1 _ rfl).trans rfl

/-! ## No retry: the claim -/

/-- C20: every call of `Do` invokes the HTTP transport at most once, and
whatever the first outcome (network error or timeout, status at least 400,
undecodable body, protocol errors) it is returned to the caller after that one
request. -/
theorem Do_single_attempt (c : Client) (env : Env) (query : String) (vars : GoMap) :
    (c.Do env query vars).requests.length ≤ 1 ∧
    ∀ data, env.marshal { Query := query, Variables := vars } = .ok data →
      env.newRequestError "POST" c.endpoint = none →
      (c.Do env query vars).requests = [c.buildRequest data] ∧
      (∀ err, env.roundTrip (c.buildRequest data) = .error err →
        (c.Do env query vars).result = .error (.plain ("request failed: " ++ err))) ∧
      (∀ status err, env.roundTrip (c.buildRequest data)
          = .ok { StatusCode := status, Body := .error err } →
        (c.Do env query vars).result = .error (.plain ("reading response: " ++ err))) ∧
      (∀ status body, env.roundTrip (c.buildRequest data)
          = .ok { StatusCode := status, Body := .ok body } →
        (status ≥ 400 → (c.Do env query vars).result = .error (.shopify
          { StatusCode := status, Message := "HTTP " ++ formatInt status ++ ": " ++ body })) ∧
        (status < 400 → ∀ err, env.unmarshal body = .error err →
          (c.Do env query vars).result = .error (.plain ("parsing response: " ++ err))) ∧
        (status < 400 → ∀ envelope, env.unmarshal body = .ok envelope →
          envelope.Errors ≠ [] →
          (c.Do env query vars).result = .error (.shopify
            { StatusCode := 200,
              Message := Join (envelope.Errors.map (fun e => e.Message)) "; " }))) := by
  refine ⟨Do_requests_length_le c env query vars, fun data hm hn => ⟨?_, ?_, ?_, ?_⟩⟩
  · exact Do_requests_of_sent c env query vars data hm hn
  · intro err hr
    simp only [Client.Do, hm, hn, hr]
  · intro status err hr
    simp only [Client.Do, hm, hn, hr]
  · intro status body hr
    refine ⟨fun hs => ?_, fun hs err hu => ?_, fun hs envelope hu he => ?_⟩
    · simp only [Client.Do, hm, hn, hr, if_pos hs]
    · simp only [Client.Do, hm, hn, hr, if_neg (not_le.mpr hs), hu]
    · have hlen : envelope.Errors.length > 0 := List.length_pos.mpr he
      simp only [Client.Do, hm, hn, hr, if_neg (not_le.mpr hs), hu, if_pos hlen]

/-! ## Credential resolution: the claim -/

/-- The value `resolveEnv` finds depends on the environment only. -/
theorem resolveEnv_congr (os' os : OS) (h : os'.Getenv = os.Getenv) (names : List String) :
    resolveEnv os' names = resolveEnv os names := by
  induction names with
  | nil => rfl
  | cons name rest ih => simp only [resolveEnv, h, ih]

/-- The value `resolveEnv` finds is non-empty exactly when the environment sets
one of the names to a non-empty value. -/
theorem resolveEnv_ne_empty_iff (os : OS) (names : List String) :
    resolveEnv os names ≠ "" ↔ ∃ name ∈ names, os.Getenv name ≠ "" := by
  induction names with
  | nil => simp [resolveEnv]
  | cons name rest ih =>
    by_cases h : os.Getenv name = ""
    · simp [resolveEnv, h, ih]
    · simp [resolveEnv, h]

/-- C14: when the environment supplies both a non-empty shop and a non-empty
access token, `resolveCredentials` returns exactly that pair with no error,
for every operating system with that environment, whatever its config
directory, file and decoder are; when the environment pair
is incomplete, it returns the config file's pair if that is complete, and an
error if the file cannot be loaded or its pair is incomplete; a pair is
returned from the config file only when the environment pair is incomplete. -/
theorem resolveCredentials_precedence (os : OS) (cfg : Option Config) :
    (resolveEnv os envShopNames ≠ "" ∧ resolveEnv os envTokenNames ≠ "" →
      ∀ os' : OS, os'.Getenv = os.Getenv →
        (resolveCredentials os' cfg).shop = resolveEnv os envShopNames ∧
        (resolveCredentials os' cfg).token = resolveEnv os envTokenNames ∧
        (resolveCredentials os' cfg).err = none) ∧
    (¬ (resolveEnv os envShopNames ≠ "" ∧ resolveEnv os envTokenNames ≠ "") →
      (∀ loaded, config.Load os = .ok loaded → loaded.Shop ≠ "" ∧ loaded.AccessToken ≠ "" →
        (resolveCredentials os cfg).shop = loaded.Shop ∧
        (resolveCredentials os cfg).token = loaded.AccessToken ∧
        (resolveCredentials os cfg).err = none) ∧
      (∀ loaded, config.Load os = .ok loaded → ¬ (loaded.Shop ≠ "" ∧ loaded.AccessToken ≠ "") →
        (resolveCredentials os cfg).err = some (.plain notAuthenticatedMessage)) ∧
      (∀ err, config.Load os = .error err →
        (resolveCredentials os cfg).err = some (.plain ("failed to load config: " ++ err)))) ∧
    ((resolveCredentials os cfg).err = none →
      ¬ (resolveEnv os envShopNames ≠ "" ∧ resolveEnv os envTokenNames ≠ "") →
      ∃ loaded, config.Load os = .ok loaded ∧ loaded.Shop ≠ "" ∧ loaded.AccessToken ≠ "" ∧
        (resolveCredentials os cfg).shop = loaded.Shop ∧
        (resolveCredentials os cfg).token = loaded.AccessToken) := by
  refine ⟨fun henv os' hg => ?_, fun henv => ⟨?_, ?_, ?_⟩, fun herr henv => ?_⟩
  · have hs := resolveEnv_congr os' os hg envShopNames
    have ht := resolveEnv_congr os' os hg envTokenNames
    have h : resolveEnv os' envShopNames ≠ "" ∧ resolveEnv os' envTokenNames ≠ "" := by
      rw [hs, ht]; exact henv
    simp only [resolveCredentials, if_pos h]
    exact ⟨hs, ht, trivial⟩
  · intro loaded hl hc
    simp only [resolveCredentials, if_neg henv, hl, if_pos hc, and_self]
  · intro loaded hl hc
    simp only [resolveCredentials, if_neg henv, hl, if_neg hc]
  · intro err hl
    simp only [resolveCredentials, if_neg henv, hl]
  · unfold resolveCredentials at herr ⊢
    simp only [if_neg henv] at herr ⊢
    cases hl : config.Load os with
    | error err => rw [hl] at herr; simp at herr
    | ok loaded =>
      rw [hl] at herr
      simp only at herr ⊢
      by_cases hc : loaded.Shop ≠ "" ∧ loaded.AccessToken ≠ ""
      · exact ⟨loaded, rfl, hc.1, hc.2, by simp only [if_pos hc, and_self]⟩
      · rw [if_neg hc] at herr; simp at herr

theorem resolveCredentials_precedence_witness :
    (resolveCredentials (brokenConfigOS (fun name =>
        if name = "SHOPIFY_STORE" then "mystore" else
        if name = "SHOPIFY_TOKEN" then "shpat_0123456789abcdef" else "")) none).shop = "mystore" ∧
    (resolveCredentials (storedConfigOS (fun name =>
        if name = "SHOPIFY_SHOP" then "mystore" else "")
        { Shop := "other.myshopify.com", AccessToken := "shpat_fedcba9876543210" }) none).token
      = "shpat_fedcba9876543210" := by
  constructor
  · have h := (resolveCredentials_precedence (brokenConfigOS (fun name =>
        if name = "SHOPIFY_STORE" then "mystore" else
        if name = "SHOPIFY_TOKEN" then "shpat_0123456789abcdef" else "")) none).1
      ⟨by decide, by decide⟩ _ rfl
    exact h.1.trans (by decide)
  · have h := ((resolveCredentials_precedence (storedConfigOS (fun name =>
        if name = "SHOPIFY_SHOP" then "mystore" else "")
        { Shop := "other.myshopify.com", AccessToken := "shpat_fedcba9876543210" }) none).2.1
      (by decide)).1 { Shop := "other.myshopify.com", AccessToken := "shpat_fedcba9876543210" }
      rfl ⟨by decide, by decide⟩
    exact h.2.1

/-! ## Endpoint: the claim -/

theorem containsList_dot (l : List Char) : containsList ['.'] l = true ↔ '.' ∈ l := by
  induction l with
  | nil => simp [containsList]
  | cons c cs ih =>
    simp only [containsList, List.isPrefixOf, Bool.and_true, Bool.or_eq_true, beq_iff_eq, ih,
      List.mem_cons]

theorem Contains_dot (s : String) : Contains s "." = true ↔ '.' ∈ s.data := by
  unfold Contains
  rw [show (".": String).data = ['.'] from rfl]
  exact containsList_dot s.data

theorem endpoint_of_domain (d : String) :
    "https://" ++ d ++ "/admin/api/" ++ apiVersion ++ "/graphql.json" =
      "https://" ++ d ++ "/admin/api/2026-01/graphql.json" := by
  have h : "/admin/api/" ++ apiVersion ++ "/graphql.json" = "/admin/api/2026-01/graphql.json" := by
    decide
  rw [← h]
  simp only [String.append_assoc]

/-- C15: for every shop string `s`, the endpoint is `https://`, then the domain
`d`, then `/admin/api/2026-01/graphql.json`, where `d = s` when `s` contains a
dot and `d = s ++ ".myshopify.com"` otherwise; so `NewClient "mystore" t` and
`NewClient "mystore.myshopify.com" t` have the same endpoint. -/
theorem endpoint_spec (s t : String) :
    ('.' ∈ s.data →
      (NewClient s t).endpoint = "https://" ++ s ++ "/admin/api/2026-01/graphql.json") ∧
    ('.' ∉ s.data →
      (NewClient s t).endpoint =
        "https://" ++ (s ++ ".myshopify.com") ++ "/admin/api/2026-01/graphql.json") ∧
    (NewClient "mystore" t).endpoint = (NewClient "mystore.myshopify.com" t).endpoint := by
  have key : ∀ s' : String, (NewClient s' t).endpoint =
      "https://" ++ (if '.' ∈ s'.data then s' else s' ++ ".myshopify.com")
        ++ "/admin/api/2026-01/graphql.json" := by
    intro s'
    unfold Client.endpoint NewClient
    simp only
    rw [endpoint_of_domain]
    by_cases h : '.' ∈ s'.data
    · have hc := (Contains_dot s').mpr h
      simp only [hc, h, Bool.not_true, if_true, Bool.false_eq_true, if_false]
    · have hc : Contains s' "." = false := by
        cases hb : Contains s' "."
        · rfl
        · exact absurd ((Contains_dot s').mp hb) h
      simp only [hc, h, Bool.not_false, if_true, if_false]
  refine ⟨fun h => ?_, fun h => ?_, ?_⟩
  · rw [key, if_pos h]
  · rw [key, if_neg h]
  · rw [key, key]
    have h1 : '.' ∉ ("mystore" : String).data := by decide
    have h2 : '.' ∈ ("mystore.myshopify.com" : String).data := by decide
    rw [if_neg h1, if_pos h2]
    rfl

theorem endpoint_spec_witness :
    (NewClient "mystore.myshopify.com" "token").endpoint =
      "https://mystore.myshopify.com/admin/api/2026-01/graphql.json" ∧
    (NewClient "mystore" "token").endpoint =
      "https://mystore.myshopify.com/admin/api/2026-01/graphql.json" :=
  ⟨(endpoint_spec "mystore.myshopify.com" "token").1 (by decide),
    (endpoint_spec "mystore" "token").2.1 (by decide)⟩

/-! ## Request body: the claim -/

theorem MarshalJSON_member_query (query : String) (vars : GoMap) :
    (GraphQLRequest.MarshalJSON { Query := query, Variables := vars }).member "query" =
      some (.string query) := by
  unfold GraphQLRequest.MarshalJSON
  simp only
  split <;> simp [JSON.member, List.find?]

/-- C16, as stated, fails: for the nil variable map that `GetShop` passes, the
encoded request body is an object with the key `query` only; it has no key
`variables`. -/
theorem MarshalJSON_nil_variables_counterexample :
    GraphQLRequest.MarshalJSON { Query := GetShop.query, Variables := [] } =
        .object [("query", .string GetShop.query)] ∧
      (GraphQLRequest.MarshalJSON { Query := GetShop.query, Variables := [] }).member "variables"
        = none :=
  ⟨rfl, rfl⟩

/-- C16, amended: for every query document and variable map, the encoded
request body is an object whose key `query` holds the document; it has the key
`variables`, holding the encoded map, exactly when the map is non-empty (a nil
or empty map is left out). With an encoder that serialises this document, the
body of the request `Do` sends is its serialisation. -/
theorem MarshalJSON_spec (query : String) (vars : GoMap) :
    (∃ members, GraphQLRequest.MarshalJSON { Query := query, Variables := vars }
      = .object members) ∧
    (GraphQLRequest.MarshalJSON { Query := query, Variables := vars }).member "query" =
      some (.string query) ∧
    (vars ≠ [] →
      (GraphQLRequest.MarshalJSON { Query := query, Variables := vars }).member "variables" =
        some (.object (GoValue.membersToJSON vars))) ∧
    (vars = [] →
      (GraphQLRequest.MarshalJSON { Query := query, Variables := vars }).member "variables" =
        none) ∧
    (∀ (c : Client) (env : Env) (render : JSON → String),
      env.marshal = (fun payload => .ok (render payload.MarshalJSON)) →
      env.newRequestError "POST" c.endpoint = none →
      (c.Do env query vars).requests =
        [c.buildRequest (render
          (GraphQLRequest.MarshalJSON { Query := query, Variables := vars }))]) := by
  refine ⟨⟨_, rfl⟩, MarshalJSON_member_query query vars, fun h => ?_, fun h => ?_,
    fun c env render hm hn => ?_⟩
  · have hl : ¬ vars.length = 0 := fun e => h (List.length_eq_zero.mp e)
    have hne : ¬ ("query" : String) = "variables" := by decide
    simp [GraphQLRequest.MarshalJSON, hl, JSON.member, List.find?, hne]
  · subst h
    rfl
  · exact Do_requests_of_sent c env query vars _ (by rw [hm]) hn

theorem MarshalJSON_spec_witness :
    (GraphQLRequest.MarshalJSON
        { Query := "query", Variables := ListWebhooks.vars 50 "abc" }).member "variables" =
      some (.object [("first", .number 50), ("after", .string "abc")]) ∧
    (GraphQLRequest.MarshalJSON { Query := "query", Variables := [] }).member "variables" = none :=
  ⟨((MarshalJSON_spec "query" (ListWebhooks.vars 50 "abc")).2.2.1
      (fun h => absurd (congrArg List.length h) (by decide))).trans rfl,
    (MarshalJSON_spec "query" []).2.2.2.1 rfl⟩

/-! ## Page-size hint and cursor across all list operations: the claim -/

/-- C17, as stated, fails: `ListLocations` takes a page-size hint only, so no
call of it sends a cursor as `after`. -/
theorem ListLocations_cursor_counterexample :
    ¬ AcceptsHintAndCursor ListOp.locations ∧
      (ListCall.locations 50).vars = [("first", .int 50)] := by
  refine ⟨fun h => ?_, rfl⟩
  obtain ⟨call, hop, -, ha⟩ := h 50 "eyJsYXN0X2lkIjo0fQ==" (by decide)
  cases call <;> simp only [ListCall.op, reduceCtorEq] at hop
  simp [ListCall.vars, ListLocations.vars, GoMap.get] at ha

/-! ## Filter forwarding: the claim -/

/-- A map without the filter key, given the filter when it is non-empty,
forwards the filter. -/
theorem filterForwarded_of_base (base : GoMap) (q : String) (hb : base.get "query" = none) :
    FilterForwarded (if q ≠ "" then base.set "query" (.str q) else base) q := by
  by_cases hq : q = ""
  · simp [FilterForwarded, GoMap.contains, hq, hb]
  · simp [FilterForwarded, GoMap.contains, hq, GoMap.get_set_self]

/-- The map a filter-taking list operation holds before it looks at the
filter has no filter key. -/
theorem no_query_before_filter (first : Int) (after : String) :
    GoMap.get (if after ≠ "" then GoMap.set [("first", .int first)] "after" (.str after)
      else [("first", .int first)]) "query" = none := by
  have hne : ("after" : String) ≠ "query" := by decide
  by_cases ha : after = ""
  · simp [ha, GoMap.get]
  · simp [ha, GoMap.get_set_ne _ _ _ _ hne, GoMap.get]

/-- C18: for each list operation that takes a filter string and every filter
`q`, the variable map handed to `Do` contains the key `query` exactly when `q`
is non-empty, and then holds exactly `q`. -/
theorem list_vars_filter_forwarded (first : Int) (after q : String) :
    FilterForwarded (ListProducts.vars first after q) q ∧
    FilterForwarded (ListOrders.vars first after q) q ∧
    FilterForwarded (ListCustomers.vars first after q) q ∧
    FilterForwarded (ListCollections.vars first after q) q ∧
    FilterForwarded (ListInventoryItems.vars first after q) q ∧
    FilterForwarded (ListDiscounts.vars first after q) q := by
  have h := filterForwarded_of_base _ q (no_query_before_filter first after)
  exact ⟨h, h, h, h, h, h⟩

theorem list_vars_filter_forwarded_witness :
    (ListProducts.vars 50 "" "title:*shirt* AND status:active").get "query"
      = some (.str "title:*shirt* AND status:active") ∧
    (ListDiscounts.vars 50 "abc" "status:active").get "query" = some (.str "status:active") ∧
    (ListOrders.vars 50 "abc" "").contains "query" = false := by
  refine ⟨(list_vars_filter_forwarded 50 "" "title:*shirt* AND status:active").1.2 (by decide),
    (list_vars_filter_forwarded 50 "abc" "status:active").2.2.2.2.2.2 (by decide), ?_⟩
  have h := (list_vars_filter_forwarded 50 "abc" "").2.1.1
  cases hc : (ListOrders.vars 50 "abc" "").contains "query"
  · rfl
  · exact absurd rfl (h.mp hc)

/-! ## Webhook connection: the claim -/

theorem ListWebhooks_foldl (edges : List RawWebhookEdge) (conn : WebhookSubscriptionConnection) :
    edges.foldl (fun conn e => { conn with Edges := conn.Edges ++ [ListWebhooks.edge e] }) conn =
      { conn with Edges := conn.Edges ++ edges.map ListWebhooks.edge } := by
  induction edges generalizing conn with
  | nil => simp
  | cons e rest ih => simp [List.foldl, ih]

theorem ListWebhooks_requests (c : Client) (env : Env)
    (u : String → Except String RawWebhookData) (first : Int) (after : String) :
    (c.ListWebhooks env u first after).requests =
      (c.Do env ListWebhooks.gql (ListWebhooks.vars first after)).requests := by
  unfold Client.ListWebhooks
  simp only
  split
  · rfl
  · split <;> rfl

/-- C19: when `Do` succeeds and the payload decodes, `ListWebhooks` returns a
connection with as many edges as the payload, in the same order, each keeping
its cursor, id, topic, format, createdAt and callback URL, and with the
payload's PageInfo; the call made exactly one request, so the connection is
one page. -/
theorem ListWebhooks_preserves (c : Client) (env : Env)
    (unmarshalData : String → Except String RawWebhookData) (first : Int) (after : String)
    (resp : GraphQLResponse) (rawData : RawWebhookData)
    (hdo : (c.Do env ListWebhooks.gql (ListWebhooks.vars first after)).result = .ok resp)
    (hdec : unmarshalData resp.Data = .ok rawData) :
    ∃ conn, (c.ListWebhooks env unmarshalData first after).result = .ok conn ∧
      conn.Edges.length = rawData.WebhookSubscriptions.Edges.length ∧
      conn.Edges.map (fun e => (e.Cursor, e.Node.ID, e.Node.Topic, e.Node.Format,
          e.Node.CreatedAt, e.Node.Endpoint.CallbackURL)) =
        rawData.WebhookSubscriptions.Edges.map (fun e => (e.Cursor, e.Node.ID, e.Node.Topic,
          e.Node.Format, e.Node.CreatedAt, e.Node.Endpoint.CallbackURL)) ∧
      conn.PageInfo = rawData.WebhookSubscriptions.PageInfo ∧
      (c.ListWebhooks env unmarshalData first after).requests.length = 1 := by
  refine ⟨{ Edges := rawData.WebhookSubscriptions.Edges.map ListWebhooks.edge,
            PageInfo := rawData.WebhookSubscriptions.PageInfo }, ?_, ?_, ?_, rfl, ?_⟩
  · simp only [Client.ListWebhooks, hdo, hdec, ListWebhooks_foldl, List.nil_append]
  · simp only [List.length_map]
  · simp only [List.map_map]
    rfl
  · obtain ⟨data, -, hr⟩ := Do_requests_of_ok c env _ _ resp hdo
    rw [ListWebhooks_requests, hr]
    rfl

theorem ListWebhooks_preserves_witness :
    ((NewClient "mystore" "token").ListWebhooks (fixedEnv 200 "body" (.ok envelopeOk))
      (fun _ => .ok sampleWebhookData) 2 "").result =
      .ok { Edges := [ListWebhooks.edge sampleWebhookEdge1, ListWebhooks.edge sampleWebhookEdge2],
            PageInfo := { HasNextPage := true, HasPreviousPage := false, StartCursor := "",
                          EndCursor := "c2" } } := by
  obtain ⟨conn, h, -⟩ := ListWebhooks_preserves (NewClient "mystore" "token")
    (fixedEnv 200 "body" (.ok envelopeOk)) (fun _ => .ok sampleWebhookData) 2 ""
    envelopeOk sampleWebhookData rfl rfl
  rfl

/-! ## Product update: the claim -/

theorem GoMap.get_set (m : GoMap) (k k' : String) (v : GoValue) :
    (m.set k v).get k' = if k = k' then some v else m.get k' := by
  by_cases h : k = k'
  · subst h; simp [GoMap.get_set_self]
  · simp [h, GoMap.get_set_ne m k' k v h]

theorem GoMap.get_ite_set (c : Prop) [Decidable c] (m : GoMap) (k k' : String) (v : GoValue) :
    GoMap.get (if c then m.set k v else m) k' = if c ∧ k = k' then some v else m.get k' := by
  by_cases hc : c
  · simp [hc, GoMap.get_set]
  · simp [hc]

/-- C21: for every argument tuple, the input object `UpdateProduct` sends has
the key `id` holding `ToGID "Product" id`; each of `title`, `vendor`,
`productType`, `status`, `descriptionHtml` and `tags` exactly when the
corresponding argument is non-empty, `status` upper-cased and the others
verbatim; and no other key. The map is sent as the variable `input`. -/
theorem UpdateProduct_input_spec (env : Env)
    (id title vendor productType status descriptionHTML : String) (tags : List String) :
    (UpdateProduct.input env id title vendor productType status descriptionHTML tags).get "id"
      = some (.str (ToGID "Product" id)) ∧
    (UpdateProduct.input env id title vendor productType status descriptionHTML tags).get "title"
      = (if title = "" then none else some (.str title)) ∧
    (UpdateProduct.input env id title vendor productType status descriptionHTML tags).get "vendor"
      = (if vendor = "" then none else some (.str vendor)) ∧
    (UpdateProduct.input env id title vendor productType status descriptionHTML tags).get
        "productType"
      = (if productType = "" then none else some (.str productType)) ∧
    (UpdateProduct.input env id title vendor productType status descriptionHTML tags).get "status"
      = (if status = "" then none else some (.str (env.ToUpper status))) ∧
    (UpdateProduct.input env id title vendor productType status descriptionHTML tags).get
        "descriptionHtml"
      = (if descriptionHTML = "" then none else some (.str descriptionHTML)) ∧
    (UpdateProduct.input env id title vendor productType status descriptionHTML tags).get "tags"
      = (if tags = [] then none else some (.strs tags)) ∧
    (∀ k, k ∉ UpdateProduct.keys →
      (UpdateProduct.input env id title vendor productType status descriptionHTML tags).get k
        = none) := by
  refine ⟨?_, ?_, ?_, ?_, ?_, ?_, ?_, fun k hk => ?_⟩
  · simp only [UpdateProduct.input, GoMap.get_ite_set, GoMap.get]
    simp
  · simp only [UpdateProduct.input, GoMap.get_ite_set, GoMap.get]
    by_cases h : title = "" <;> simp [h]
  · simp only [UpdateProduct.input, GoMap.get_ite_set, GoMap.get]
    by_cases h : vendor = "" <;> simp [h]
  · simp only [UpdateProduct.input, GoMap.get_ite_set, GoMap.get]
    by_cases h : productType = "" <;> simp [h]
  · simp only [UpdateProduct.input, GoMap.get_ite_set, GoMap.get]
    by_cases h : status = "" <;> simp [h]
  · simp only [UpdateProduct.input, GoMap.get_ite_set, GoMap.get]
    by_cases h : descriptionHTML = "" <;> simp [h]
  · simp only [UpdateProduct.input, GoMap.get_ite_set, GoMap.get]
    by_cases h : tags = [] <;> simp [h]
  · simp only [UpdateProduct.keys, List.mem_cons, List.mem_singleton, List.not_mem_nil, or_false,
      not_or] at hk
    obtain ⟨h1, h2, h3, h4, h5, h6, h7⟩ := hk
    simp only [UpdateProduct.input, GoMap.get_ite_set, GoMap.get]
    simp [Ne.symm h1, Ne.symm h2, Ne.symm h3, Ne.symm h4, Ne.symm h5, Ne.symm h6, Ne.symm h7]

theorem UpdateProduct_input_spec_witness :
    (UpdateProduct.input (fixedEnv 200 "body" (.ok envelopeOk)) "1234567890" "" "Acme" ""
        "archived" "" []).get "id" = some (.str "gid://shopify/Product/1234567890") ∧
    (UpdateProduct.input (fixedEnv 200 "body" (.ok envelopeOk)) "1234567890" "" "Acme" ""
        "archived" "" []).get "title" = none ∧
    (UpdateProduct.input (fixedEnv 200 "body" (.ok envelopeOk)) "1234567890" "" "Acme" ""
        "archived" "" []).get "vendor" = some (.str "Acme") ∧
    (UpdateProduct.input (fixedEnv 200 "body" (.ok envelopeOk)) "1234567890" "" "Acme" ""
        "archived" "" []).get "handle" = none :=
  ⟨(UpdateProduct_input_spec (fixedEnv 200 "body" (.ok envelopeOk)) "1234567890" "" "Acme" ""
      "archived" "" []).1,
    (UpdateProduct_input_spec (fixedEnv 200 "body" (.ok envelopeOk)) "1234567890" "" "Acme" ""
      "archived" "" []).2.1,
    (UpdateProduct_input_spec (fixedEnv 200 "body" (.ok envelopeOk)) "1234567890" "" "Acme" ""
      "archived" "" []).2.2.1,
    (UpdateProduct_input_spec (fixedEnv 200 "body" (.ok envelopeOk)) "1234567890" "" "Acme" ""
      "archived" "" []).2.2.2.2.2.2.2 "handle" (by decide)⟩

/-! ## Field pairs: the claim -/

theorem indexList_eq_none (l : List Char) (h : '=' ∉ l) : indexList ['='] l = none := by
  induction l with
  | nil => simp [indexList]
  | cons c cs ih =>
    have hc : '=' ≠ c := fun e => h (e ▸ List.mem_cons_self _ _)
    have hcs : '=' ∉ cs := fun e => h (List.mem_cons_of_mem _ e)
    simp [indexList, ih hcs, List.isPrefixOf, hc]

theorem indexList_eq_append (k v : List Char) (h : '=' ∉ k) :
    indexList ['='] (k ++ '=' :: v) = some k.length := by
  induction k with
  | nil => simp [indexList, List.isPrefixOf]
  | cons c cs ih =>
    have hc : '=' ≠ c := fun e => h (e ▸ List.mem_cons_self _ _)
    have hcs : '=' ∉ cs := fun e => h (List.mem_cons_of_mem _ e)
    simp [indexList, ih hcs, List.isPrefixOf, hc]

theorem data_append_eq (k v : String) : (k ++ "=" ++ v).data = k.data ++ '=' :: v.data := by
  rcases k with ⟨a⟩
  rcases v with ⟨b⟩
  show (a ++ ['=']) ++ b = a ++ '=' :: b
  simp

theorem parseFieldPairs_foldl (pairs : List String) (acc : List MetaobjectField) :
    pairs.foldl (fun fields p =>
      let idx := Index p "="
      if idx < 0 then fields
      else fields ++ [{ Key := sliceTo p idx, Value := sliceFrom p (idx + 1), Type_ := "" }]) acc
      = acc ++ (pairs.map fieldsOf).flatten := by
  induction pairs generalizing acc with
  | nil => simp
  | cons p rest ih =>
    simp only [List.foldl, List.map, List.flatten, ih]
    by_cases h : Index p "=" < 0
    · simp [fieldsOf, h]
    · simp [fieldsOf, h]

theorem parseFieldPairs_cons (p : String) (rest : List String) :
    parseFieldPairs (p :: rest) = fieldsOf p ++ parseFieldPairs rest := by
  unfold parseFieldPairs
  rw [parseFieldPairs_foldl, parseFieldPairs_foldl]
  simp

theorem fieldsOf_no_eq (p : String) (h : '=' ∉ p.data) : fieldsOf p = [] := by
  have hi : Index p "=" = -1 := by
    unfold Index
    rw [show ("=" : String).data = ['='] from rfl, indexList_eq_none _ h]
  simp [fieldsOf, hi]

theorem fieldsOf_pair (k v : String) (h : '=' ∉ k.data) :
    fieldsOf (k ++ "=" ++ v) = [{ Key := k, Value := v, Type_ := "" }] := by
  have hi : Index (k ++ "=" ++ v) "=" = (k.data.length : Int) := by
    unfold Index
    rw [show ("=" : String).data = ['='] from rfl, data_append_eq, indexList_eq_append _ _ h]
  have hneg : ¬ ((k.data.length : Int) < 0) := by omega
  have hk : sliceTo (k ++ "=" ++ v) (k.data.length : Int) = k := by
    apply String.ext
    simp only [sliceTo, data_append_eq, Int.toNat_ofNat]
    simp
  have hv : sliceFrom (k ++ "=" ++ v) ((k.data.length : Int) + 1) = v := by
    apply String.ext
    have ht : ((k.data.length : Int) + 1).toNat = k.data.length + 1 := by omega
    simp only [sliceFrom, data_append_eq, ht]
    rw [List.drop_append_eq_append_drop]
    simp
  simp only [fieldsOf, hi, if_neg hneg, hk, hv]

/-- A string that contains `=` splits at its first `=`. -/
theorem exists_pair_of_mem (l : List Char) (h : '=' ∈ l) :
    ∃ k v : List Char, l = k ++ '=' :: v ∧ '=' ∉ k := by
  induction l with
  | nil => simp at h
  | cons c cs ih =>
    by_cases hc : c = '='
    · exact ⟨[], cs, by simp [hc], by simp⟩
    · have hcs : '=' ∈ cs := by
        rcases List.mem_cons.mp h with e | e
        · exact absurd e.symm hc
        · exact e
      obtain ⟨k, v, hl, hk⟩ := ih hcs
      refine ⟨c :: k, v, by simp [hl], ?_⟩
      intro hm
      rcases List.mem_cons.mp hm with e | e
      · exact hc e.symm
      · exact hk e

/-- C28: `parseFieldPairs` goes through its input in order: a string without
`=` contributes nothing; a string `k ++ "=" ++ v` whose `k` has no `=`, that
is, split at its first `=`, contributes the field with key `k` and value `v`
(which may contain `=`); every string that contains `=` has that form. In
particular `parseFieldPairs ["key=value", "key2=value2"]` is the two fields
`key`, `value` and `key2`, `value2`. -/
theorem parseFieldPairs_spec :
    parseFieldPairs [] = [] ∧
    (∀ (p : String) (rest : List String), '=' ∉ p.data →
      parseFieldPairs (p :: rest) = parseFieldPairs rest) ∧
    (∀ (k v : String) (rest : List String), '=' ∉ k.data →
      parseFieldPairs ((k ++ "=" ++ v) :: rest) =
        { Key := k, Value := v, Type_ := "" } :: parseFieldPairs rest) ∧
    (∀ p : String, '=' ∈ p.data → ∃ k v : String, p = k ++ "=" ++ v ∧ '=' ∉ k.data) ∧
    parseFieldPairs ["key=value", "key2=value2"] =
      [{ Key := "key", Value := "value", Type_ := "" },
       { Key := "key2", Value := "value2", Type_ := "" }] := by
  refine ⟨rfl, fun p rest h => ?_, fun k v rest h => ?_, fun p h => ?_, by decide⟩
  · rw [parseFieldPairs_cons, fieldsOf_no_eq p h]; rfl
  · rw [parseFieldPairs_cons, fieldsOf_pair k v h]; rfl
  · obtain ⟨k, v, hl, hk⟩ := exists_pair_of_mem p.data h
    refine ⟨⟨k⟩, ⟨v⟩, ?_, hk⟩
    apply String.ext
    rw [data_append_eq, hl]

theorem parseFieldPairs_spec_witness :
    parseFieldPairs ["title=a=b", "novalue", "=x"] =
      [{ Key := "title", Value := "a=b", Type_ := "" }, { Key := "", Value := "x", Type_ := "" }] :=
  (parseFieldPairs_spec.2.2.1 "title" "a=b" ["novalue", "=x"] (by decide)).trans (by decide)

/-! ## Tags: the claim -/

theorem head?_dropWhile_false (p : Char → Bool) (l : List Char) (c : Char)
    (h : (l.dropWhile p).head? = some c) : p c = false := by
  induction l with
  | nil => simp at h
  | cons a l ih =>
    by_cases ha : p a = true
    · rw [List.dropWhile_cons_of_pos ha] at h; exact ih h
    · rw [List.dropWhile_cons_of_neg ha] at h
      simp only [List.head?_cons, Option.some.injEq] at h
      subst h
      simpa using ha

theorem getLast?_dropWhile (p : Char → Bool) (l : List Char) (c : Char)
    (h : (l.dropWhile p).getLast? = some c) : l.getLast? = some c := by
  induction l with
  | nil => simp at h
  | cons a l ih =>
    by_cases ha : p a = true
    · rw [List.dropWhile_cons_of_pos ha] at h
      have hl := ih h
      cases l with
      | nil => simp at hl
      | cons b l => simpa [List.getLast?_cons_cons] using hl
    · rw [List.dropWhile_cons_of_neg ha] at h; exact h

theorem dropWhile_eq_self (p : Char → Bool) (l : List Char)
    (h : ∀ c, l.head? = some c → p c = false) : l.dropWhile p = l := by
  cases l with
  | nil => rfl
  | cons a l =>
    have ha : ¬ p a = true := by simp [h a rfl]
    exact List.dropWhile_cons_of_neg ha

theorem mem_of_mem_dropWhile (p : Char → Bool) (l : List Char) (c : Char)
    (h : c ∈ l.dropWhile p) : c ∈ l :=
  (List.dropWhile_sublist p).subset h

theorem mem_of_mem_trimList (l : List Char) (c : Char) (h : c ∈ trimList l) : c ∈ l := by
  unfold trimList at h
  rw [List.mem_reverse] at h
  have h1 := mem_of_mem_dropWhile _ _ _ h
  rw [List.mem_reverse] at h1
  exact mem_of_mem_dropWhile _ _ _ h1

theorem trimList_head (l : List Char) (c : Char) (h : (trimList l).head? = some c) :
    IsSpace c = false := by
  unfold trimList at h
  rw [List.head?_reverse] at h
  have h1 := getLast?_dropWhile _ _ _ h
  rw [List.getLast?_reverse] at h1
  exact head?_dropWhile_false _ _ _ h1

theorem trimList_getLast (l : List Char) (c : Char) (h : (trimList l).getLast? = some c) :
    IsSpace c = false := by
  unfold trimList at h
  rw [List.getLast?_reverse] at h
  exact head?_dropWhile_false _ _ _ h

theorem trimList_of_trimmed (l : List Char)
    (hh : ∀ c, l.head? = some c → IsSpace c = false)
    (hl : ∀ c, l.getLast? = some c → IsSpace c = false) : trimList l = l := by
  unfold trimList
  rw [dropWhile_eq_self IsSpace l hh, dropWhile_eq_self IsSpace l.reverse, List.reverse_reverse]
  intro c hc
  rw [List.head?_reverse] at hc
  exact hl c hc

theorem splitList_no_sep (sep : Char) (l : List Char) :
    ∀ piece ∈ splitList sep l, sep ∉ piece := by
  induction l with
  | nil => simp [splitList]
  | cons c cs ih =>
    intro piece hp
    unfold splitList at hp
    by_cases hc : c = sep
    · rw [if_pos hc] at hp
      rcases List.mem_cons.mp hp with e | e
      · simp [e]
      · exact ih piece e
    · rw [if_neg hc] at hp
      cases hs : splitList sep cs with
      | nil =>
        rw [hs] at hp
        simp only [List.mem_singleton] at hp
        subst hp
        simpa using Ne.symm hc
      | cons q rest =>
        rw [hs] at hp ih
        rcases List.mem_cons.mp hp with e | e
        · subst e
          intro hm
          rcases List.mem_cons.mp hm with e' | e'
          · exact hc e'.symm
          · exact ih q (List.mem_cons_self _ _) e'
        · exact ih piece (List.mem_cons_of_mem _ e)

theorem splitList_of_not_mem (sep : Char) (t : List Char) (h : sep ∉ t) :
    splitList sep t = [t] := by
  induction t with
  | nil => rfl
  | cons c cs ih =>
    have hc : ¬ c = sep := fun e => h (e ▸ List.mem_cons_self _ _)
    have hcs : sep ∉ cs := fun e => h (List.mem_cons_of_mem _ e)
    simp [splitList, hc, ih hcs]

theorem splitList_append_sep (sep : Char) (t l : List Char) (h : sep ∉ t) :
    splitList sep (t ++ sep :: l) = t :: splitList sep l := by
  induction t with
  | nil => simp [splitList]
  | cons c cs ih =>
    have hc : ¬ c = sep := fun e => h (e ▸ List.mem_cons_self _ _)
    have hcs : sep ∉ cs := fun e => h (List.mem_cons_of_mem _ e)
    simp [splitList, hc, ih hcs]

theorem splitList_joined (sep : Char) (t : List Char) (rest : List (List Char))
    (ht : sep ∉ t) (hr : ∀ r ∈ rest, sep ∉ r) :
    splitList sep (t ++ (rest.map (fun r => sep :: r)).flatten) = t :: rest := by
  induction rest generalizing t with
  | nil => simpa using splitList_of_not_mem sep t ht
  | cons r rs ih =>
    have hr' : sep ∉ r := hr r (List.mem_cons_self _ _)
    have hrs : ∀ x ∈ rs, sep ∉ x := fun x hx => hr x (List.mem_cons_of_mem _ hx)
    simp only [List.map_cons, List.flatten_cons, List.cons_append]
    rw [splitList_append_sep sep t _ ht, ih r hr' hrs]

theorem intercalate_go_data (acc sep : String) (l : List String) :
    (String.intercalate.go acc sep l).data =
      acc.data ++ (l.map (fun a => sep.data ++ a.data)).flatten := by
  induction l generalizing acc with
  | nil => simp [String.intercalate.go]
  | cons a l ih =>
    rw [String.intercalate.go, ih]
    rcases acc with ⟨x⟩
    rcases sep with ⟨y⟩
    rcases a with ⟨z⟩
    show ((x ++ y) ++ z) ++ _ = x ++ _
    simp

theorem Join_comma_data (t : String) (rest : List String) :
    (Join (t :: rest) ",").data =
      t.data ++ ((rest.map String.data).map (fun r => ',' :: r)).flatten := by
  unfold Join String.intercalate
  rw [intercalate_go_data]
  simp only [List.map_map]
  rfl

theorem splitTags_foldl (parts : List String) (acc : List String) :
    parts.foldl (fun result p =>
      let p := TrimSpace p
      if p ≠ "" then result ++ [p] else result) acc =
      acc ++ (parts.map TrimSpace).filter (fun t => decide (t ≠ "")) := by
  induction parts generalizing acc with
  | nil => simp
  | cons p rest ih =>
    simp only [List.foldl, List.map_cons, ih]
    by_cases h : TrimSpace p = ""
    · simp [h]
    · simp [h]

theorem splitTags_eq (s : String) :
    splitTags s = ((Split s ',').map TrimSpace).filter (fun t => decide (t ≠ "")) := by
  unfold splitTags
  by_cases h : s = ""
  · subst h; decide
  · rw [if_neg h]
    simp only [splitTags_foldl, List.nil_append]

theorem TrimSpace_of_tag (t : String) (h : IsTag t) : TrimSpace t = t := by
  apply String.ext
  exact trimList_of_trimmed t.data h.2.1.1 h.2.1.2

theorem map_TrimSpace_tags (ts : List String) (h : ∀ t ∈ ts, IsTag t) :
    ts.map TrimSpace = ts := by
  induction ts with
  | nil => rfl
  | cons t rest ih =>
    rw [List.map_cons, TrimSpace_of_tag t (h t (List.mem_cons_self _ _)),
      ih (fun x hx => h x (List.mem_cons_of_mem _ hx))]

theorem filter_nonempty_tags (ts : List String) (h : ∀ t ∈ ts, IsTag t) :
    ts.filter (fun t => decide (t ≠ "")) = ts := by
  rw [List.filter_eq_self]
  intro t ht
  simpa using (h t ht).1

theorem Split_Join_tags (ts : List String) (hne : ts ≠ []) (h : ∀ t ∈ ts, IsTag t) :
    Split (Join ts ",") ',' = ts := by
  cases ts with
  | nil => exact absurd rfl hne
  | cons t rest =>
    unfold Split
    rw [Join_comma_data, splitList_joined ',' t.data (rest.map String.data)
      (h t (List.mem_cons_self _ _)).2.2]
    · simp only [List.map_cons, List.map_map]
      have : (String.mk ∘ String.data) = id := by
        funext x; rfl
      rw [this, List.map_id]
    · intro r hr
      obtain ⟨x, hx, rfl⟩ := List.mem_map.mp hr
      exact (h x (List.mem_cons_of_mem _ hx)).2.2

/-- C29: `splitTags s` is the comma-separated pieces of `s`, in order, each
trimmed of surrounding white space, with the empty ones dropped; every tag it
returns is non-empty, has no leading or trailing white space and contains no
comma; `splitTags ""` is empty; and for every list `ts` of non-empty, trimmed,
comma-free tags, `splitTags` of `ts` joined with `,` is `ts`. -/
theorem splitTags_spec :
    (∀ s : String,
      splitTags s = ((Split s ',').map TrimSpace).filter (fun t => decide (t ≠ ""))) ∧
    (∀ (s : String), ∀ t ∈ splitTags s, IsTag t) ∧
    splitTags "" = [] ∧
    (∀ ts : List String, (∀ t ∈ ts, IsTag t) → splitTags (Join ts ",") = ts) := by
  refine ⟨splitTags_eq, fun s t ht => ?_, by decide, fun ts h => ?_⟩
  · rw [splitTags_eq, List.mem_filter] at ht
    obtain ⟨hm, hne⟩ := ht
    obtain ⟨p, hp, rfl⟩ := List.mem_map.mp hm
    refine ⟨by simpa using hne, ⟨trimList_head p.data, trimList_getLast p.data⟩, ?_⟩
    intro hc
    have h1 : ',' ∈ p.data := mem_of_mem_trimList p.data ',' hc
    unfold Split at hp
    obtain ⟨piece, hpiece, rfl⟩ := List.mem_map.mp hp
    exact splitList_no_sep ',' s.data piece hpiece h1
  · by_cases hne : ts = []
    · subst hne; decide
    · rw [splitTags_eq, Split_Join_tags ts hne h, map_TrimSpace_tags ts h,
        filter_nonempty_tags ts h]

theorem splitTags_spec_witness :
    splitTags " apparel, ,clothing ,," = ["apparel", "clothing"] ∧
    IsTag "apparel" ∧
    splitTags (Join ["apparel", "summer sale"] ",") = ["apparel", "summer sale"] := by
  have h1 : IsTag "apparel" := ⟨by decide, ⟨by decide, by decide⟩, by decide⟩
  have h2 : IsTag "summer sale" := ⟨by decide, ⟨by decide, by decide⟩, by decide⟩
  refine ⟨(splitTags_spec.1 " apparel, ,clothing ,,").trans (by decide), h1, ?_⟩
  apply splitTags_spec.2.2.2
  intro t ht
  rcases List.mem_cons.mp ht with e | e
  · exact e ▸ h1
  · rcases List.mem_cons.mp e with e' | e'
    · exact e' ▸ h2
    · simp at e'

/-! ## Client construction before command bodies: the claim -/

/-- For a command outside `auth` whose name is not exempt, the hook returns an
error or leaves the client constructed. -/
theorem PersistentPreRunE_constructs (os : OS) (g : Globals) (cmd : Command)
    (ha : isAuthCommand cmd = false) (hn : cmd.Name ∉ noAuthCommands) :
    (PersistentPreRunE os g cmd).1 ≠ none ∨ (PersistentPreRunE os g cmd).2.client ≠ none := by
  have hc : ¬ (isAuthCommand cmd = true ∨ cmd.Name ∈ noAuthCommands) := by
    rw [ha]; simp [hn]
  unfold PersistentPreRunE
  rw [if_neg hc]
  cases h : (resolveCredentials os g.cfg).err with
  | none => right; simp [h]
  | some err => left; simp [h]

/-- C22 at the failing input: for `shop info`, whose name `info` is exempt, the
hook returns no error and leaves a nil client nil, whatever credentials the
environment and the config file hold; the body then calls `GetShop` on the nil
client, which panics once the payload is encoded. -/
theorem shopInfo_hook_leaves_client_nil (os : OS) (cfg : Option Config) (env : Env)
    (unmarshalData : String → Except String ShopData) (output : Output Shop)
    (printKeyValue : List (String × String) → String) (formatTime : String → String)
    (data : String)
    (hm : env.marshal { Query := GetShop.query, Variables := [] } = .ok data) :
    PersistentPreRunE os { client := none, cfg := cfg } shopInfoCmd
        = (none, { client := none, cfg := cfg }) ∧
      shopInfoCmd.RunE (PersistentPreRunE os { client := none, cfg := cfg } shopInfoCmd).2.client
        env unmarshalData output printKeyValue formatTime = .panicked [] := by
  have h : PersistentPreRunE os { client := none, cfg := cfg } shopInfoCmd
      = (none, { client := none, cfg := cfg }) := by
    have hc : isAuthCommand shopInfoCmd = true ∨ shopInfoCmd.Name ∈ noAuthCommands :=
      Or.inr (by decide)
    unfold PersistentPreRunE
    rw [if_pos hc]
  refine ⟨h, ?_⟩
  rw [h]
  simp only [shopInfoCmd.RunE, hm]

theorem shopInfo_hook_leaves_client_nil_witness :
    (PersistentPreRunE (storedConfigOS aliasEnv
        { Shop := "mystore.myshopify.com", AccessToken := "shpat_fedcba9876543210" })
      { client := none, cfg := none } shopInfoCmd).2.client = none ∧
    (PersistentPreRunE (storedConfigOS aliasEnv
        { Shop := "mystore.myshopify.com", AccessToken := "shpat_fedcba9876543210" })
      { client := none, cfg := none } productsListCmd).2.client
      = some (NewClient "mystore" "shpat_0123456789abcdef") :=
  ⟨congrArg (fun r => r.2.client) (shopInfo_hook_leaves_client_nil (storedConfigOS aliasEnv
      { Shop := "mystore.myshopify.com", AccessToken := "shpat_fedcba9876543210" }) none
      (fixedEnv 200 "body" (.ok envelopeOk)) (fun _ => .error "no data") (tableOutput Shop)
      (fun _ => "") (fun t => t) GetShop.query rfl).1, rfl⟩

/-! ## Product returned by `CreateProduct`: the claim -/

/-- C23 at the failing input: when the decoded payload has `product: null` and
no user errors, `CreateProduct` returns a nil product with a nil error, and the
body of `products create`, printing a table, dereferences it. -/
theorem CreateProduct_nil_product (c : Client) (env : Env)
    (unmarshalData : String → Except String ProductCreateData)
    (title vendor productType status descriptionHTML tagsFlag : String)
    (ToLower : String → String) (resp : GraphQLResponse)
    (hdo : (c.Do env CreateProduct.gql
      [("input", .map (CreateProduct.input env title vendor productType status
        descriptionHTML (splitTags tagsFlag)))]).result = .ok resp)
    (hdec : unmarshalData resp.Data = .ok { ProductCreate := { Product := none, UserErrors := [] } }) :
    (c.CreateProduct env unmarshalData title vendor productType status descriptionHTML
        (splitTags tagsFlag)).result = .ok none ∧
      productsCreateCmd.RunE c env unmarshalData (tableOutput (Option Product)) ToLower
          title vendor productType status descriptionHTML tagsFlag =
        .panicked (c.CreateProduct env unmarshalData title vendor productType status
          descriptionHTML (splitTags tagsFlag)).requests := by
  have h : (c.CreateProduct env unmarshalData title vendor productType status descriptionHTML
      (splitTags tagsFlag)).result = .ok none := by
    simp only [Client.CreateProduct, hdo, hdec, userErrorsToError, List.length_nil, if_true]
  refine ⟨h, ?_⟩
  simp only [productsCreateCmd.RunE, h, tableOutput]
  rfl

theorem CreateProduct_nil_product_witness :
    ((NewClient "mystore" "token").CreateProduct (fixedEnv 200 "body" (.ok envelopeOk))
      (fun _ => .ok { ProductCreate := { Product := none, UserErrors := [] } })
      "Shirt" "" "" "" "" (splitTags "")).result = .ok none :=
  (CreateProduct_nil_product (NewClient "mystore" "token") (fixedEnv 200 "body" (.ok envelopeOk))
    (fun _ => .ok { ProductCreate := { Product := none, UserErrors := [] } })
    "Shirt" "" "" "" "" "" (fun s => s) envelopeOk rfl rfl).1

/-! ## Credential source reported by `auth status`: the claim -/

set_option maxRecDepth 20000 in
/-- C25 at the failing input: with the shop and the token set under the alias
names `SHOPIFY_STORE` and `SHOPIFY_TOKEN` and no config file,
`resolveCredentials` returns the environment pair with no error, while
`auth status` prints `Status: not authenticated`; and with the canonical names
set but a config file that cannot be loaded, `resolveCredentials` returns the
environment pair while `auth status` fails. -/
theorem authStatus_diverges_from_resolveCredentials :
    ((resolveCredentials (noConfigOS aliasEnv) none).shop = "mystore" ∧
      (resolveCredentials (noConfigOS aliasEnv) none).token = "shpat_0123456789abcdef" ∧
      (resolveCredentials (noConfigOS aliasEnv) none).err = none ∧
      authStatusCmd.source (noConfigOS aliasEnv) { Shop := "", AccessToken := "" }
        = .notAuthenticated ∧
      (authStatusCmd.RunE (noConfigOS aliasEnv)).stdout =
        "Config: /home/user/.config/shopify-admin/config.json\n\nStatus: not authenticated\n\nRun: shopify-admin auth setup <shop> <access-token>\nOr:  export SHOPIFY_SHOP=mystore.myshopify.com\n     export SHOPIFY_ACCESS_TOKEN=shpat_...\n") ∧
    ((resolveCredentials (brokenConfigOS (fun name =>
          if name = "SHOPIFY_SHOP" then "mystore" else
          if name = "SHOPIFY_ACCESS_TOKEN" then "shpat_0123456789abcdef" else "")) none).err
        = none ∧
      (authStatusCmd.RunE (brokenConfigOS (fun name =>
          if name = "SHOPIFY_SHOP" then "mystore" else
          if name = "SHOPIFY_ACCESS_TOKEN" then "shpat_0123456789abcdef" else ""))).err =
        some (.plain "loading config: neither $XDG_CONFIG_HOME nor $HOME are defined")) := by
  refine ⟨⟨by decide, by decide, by decide, by decide, rfl⟩, by decide, by decide⟩

/-! ## Unmixed credential pairs: the claim -/

theorem resolveEnv_unset (os : OS) (h : ∀ name, os.Getenv name = "") (names : List String) :
    resolveEnv os names = "" := by
  induction names with
  | nil => rfl
  | cons name rest ih => simp [resolveEnv, h name, ih]

/-- C26: the pair `resolveCredentials` returns without error comes from one
source: either the environment supplies both a shop and a token and both are
returned, or the environment pair is incomplete and both returned values are
those of the loaded config file; with an incomplete environment pair the
result is the one obtained with no environment variable set at all, so a value
set alone in the environment is ignored. -/
theorem resolveCredentials_unmixed (os : OS) (cfg : Option Config) :
    ((resolveCredentials os cfg).err = none →
      (resolveEnv os envShopNames ≠ "" ∧ resolveEnv os envTokenNames ≠ "" ∧
        (resolveCredentials os cfg).shop = resolveEnv os envShopNames ∧
        (resolveCredentials os cfg).token = resolveEnv os envTokenNames) ∨
      (¬ (resolveEnv os envShopNames ≠ "" ∧ resolveEnv os envTokenNames ≠ "") ∧
        ∃ loaded, config.Load os = .ok loaded ∧
          (resolveCredentials os cfg).shop = loaded.Shop ∧
          (resolveCredentials os cfg).token = loaded.AccessToken)) ∧
    (¬ (resolveEnv os envShopNames ≠ "" ∧ resolveEnv os envTokenNames ≠ "") →
      resolveCredentials os cfg =
        resolveCredentials { os with Getenv := fun _ => "" } cfg) := by
  constructor
  · intro herr
    by_cases henv : resolveEnv os envShopNames ≠ "" ∧ resolveEnv os envTokenNames ≠ ""
    · left
      refine ⟨henv.1, henv.2, ?_, ?_⟩ <;> simp only [resolveCredentials, if_pos henv]
    · right
      refine ⟨henv, ?_⟩
      unfold resolveCredentials at herr ⊢
      simp only [if_neg henv] at herr ⊢
      cases hl : config.Load os with
      | error err => rw [hl] at herr; simp at herr
      | ok loaded =>
        rw [hl] at herr
        simp only at herr ⊢
        by_cases hc : loaded.Shop ≠ "" ∧ loaded.AccessToken ≠ ""
        · exact ⟨loaded, rfl, by simp only [if_pos hc, and_self]⟩
        · rw [if_neg hc] at herr; simp at herr
  · intro henv
    have h0 : ∀ names, resolveEnv { os with Getenv := fun _ => "" } names = "" :=
      resolveEnv_unset _ (fun _ => rfl)
    have hempty : ¬ (resolveEnv { os with Getenv := fun _ => "" } envShopNames ≠ "" ∧
        resolveEnv { os with Getenv := fun _ => "" } envTokenNames ≠ "") := by
      rw [h0]; simp
    have hload : config.Load { os with Getenv := fun _ => "" } = config.Load os := rfl
    simp only [resolveCredentials, if_neg henv, if_neg hempty, hload]

theorem resolveCredentials_unmixed_witness :
    (resolveCredentials (storedConfigOS (fun name =>
        if name = "SHOPIFY_ACCESS_TOKEN" then "shpat_from_environment" else "")
        { Shop := "other.myshopify.com", AccessToken := "shpat_fedcba9876543210" }) none).shop
      = "other.myshopify.com" ∧
    (resolveCredentials (storedConfigOS (fun name =>
        if name = "SHOPIFY_ACCESS_TOKEN" then "shpat_from_environment" else "")
        { Shop := "other.myshopify.com", AccessToken := "shpat_fedcba9876543210" }) none).token
      = "shpat_fedcba9876543210" := by
  have h := (resolveCredentials_unmixed (storedConfigOS (fun name =>
      if name = "SHOPIFY_ACCESS_TOKEN" then "shpat_from_environment" else "")
      { Shop := "other.myshopify.com", AccessToken := "shpat_fedcba9876543210" }) none).2
    (by decide)
  rw [h]
  exact ⟨rfl, rfl⟩

/-! ## Fields required by `metaobjects update`: the claim -/

theorem metaobjectsUpdate_requests (client : Client) (env : Env)
    (unmarshalData : String → Except String MetaobjectUpdateData)
    (output : Output (Option Metaobject)) (id : String) (flags : List String)
    (hne : flags ≠ []) :
    (metaobjectsUpdateCmd.RunE client env unmarshalData output id flags).requests =
      (client.UpdateMetaobject env unmarshalData id (parseFieldPairs flags)).requests := by
  have hl : ¬ flags.length = 0 := fun e => hne (List.length_eq_zero.mp e)
  unfold metaobjectsUpdateCmd.RunE
  rw [if_neg hl]
  simp only
  split
  · rfl
  · split
    · rfl
    · split <;> rfl

/-- C27 at the failing input: for a non-empty list of `--field` values that
yields no key=value pair, such as `novalue`, `metaobjects update` passes its
length check and calls `UpdateMetaobject` with no fields, so the update
mutation is sent; only an empty list fails with the message and no request. -/
theorem metaobjectsUpdate_sends_without_pairs (client : Client) (env : Env)
    (unmarshalData : String → Except String MetaobjectUpdateData)
    (output : Output (Option Metaobject)) (id : String) (flags : List String)
    (hne : flags ≠ []) (hp : parseFieldPairs flags = []) :
    (metaobjectsUpdateCmd.RunE client env unmarshalData output id flags).requests =
        (client.UpdateMetaobject env unmarshalData id []).requests ∧
      metaobjectsUpdateCmd.RunE client env unmarshalData output id [] =
        .returned { requests := [], stdout := "",
                    err := some (.plain "at least one --field key=value is required") } := by
  refine ⟨?_, rfl⟩
  rw [metaobjectsUpdate_requests client env unmarshalData output id flags hne, hp]

set_option maxRecDepth 20000 in
theorem metaobjectsUpdate_sends_without_pairs_witness :
    parseFieldPairs ["novalue"] = [] ∧
    metaobjectsUpdateCmd.RunE (NewClient "mystore" "token") (fixedEnv 200 "body" (.ok envelopeOk))
        (fun _ => .ok { MetaobjectUpdate := { Metaobject := some sampleMetaobject,
                                              UserErrors := [] } })
        (tableOutput (Option Metaobject)) "1234567890" ["novalue"] =
      .returned { requests := [(NewClient "mystore" "token").buildRequest UpdateMetaobject.gql],
                  stdout := "Metaobject updated: lookbook\nID: 1234567890\n", err := none } ∧
    (metaobjectsUpdateCmd.RunE (NewClient "mystore" "token") (fixedEnv 200 "body" (.ok envelopeOk))
        (fun _ => .ok { MetaobjectUpdate := { Metaobject := some sampleMetaobject,
                                              UserErrors := [] } })
        (tableOutput (Option Metaobject)) "1234567890" ["novalue"]).requests =
      [(NewClient "mystore" "token").buildRequest UpdateMetaobject.gql] :=
  ⟨by decide, rfl,
    (metaobjectsUpdate_sends_without_pairs (NewClient "mystore" "token")
      (fixedEnv 200 "body" (.ok envelopeOk))
      (fun _ => .ok { MetaobjectUpdate := { Metaobject := some sampleMetaobject,
                                            UserErrors := [] } })
      (tableOutput (Option Metaobject)) "1234567890" ["novalue"] (by decide)
      (by decide)).1.trans rfl⟩

/-! ## Qualified identifiers in requests: the claim -/

/-- C24, as stated, fails: `ListMetafields` sends the owner identifier as its
caller gave it, so for the input `1234567890` the variable `ownerId` does not
start with `gid://`. -/
theorem ListMetafields_ownerId_counterexample :
    (ListMetafields.vars "1234567890" 100).get "ownerId" = some (.str "1234567890") ∧
      IdSlot.sent .listMetafieldsOwner "1234567890" = "1234567890" ∧
      HasPrefix (IdSlot.sent .listMetafieldsOwner "1234567890") "gid://" = false :=
  ⟨rfl, rfl, by decide⟩

/-- C24, amended: every resource operation that takes a resource identifier
passes it through `ToGID` with the operation's resource type, so the variable
it sends starts with `gid://` for every input; except `ListMetafields` and
`SetMetafield`, which send the owner identifier verbatim, so that it starts
with `gid://` only when the caller's string does. The modelled operations send
the slot's value under the slot's key. -/
theorem identifiers_qualified (slot : IdSlot) (id : String) :
    (∀ T, slot.resourceType = some T →
      slot.sent id = ToGID T id ∧ HasPrefix (slot.sent id) "gid://" = true) ∧
    (slot.resourceType = none → slot.sent id = id) ∧
    (slot.resourceType = none ↔ slot = .listMetafieldsOwner ∨ slot = .setMetafieldOwner) ∧
    (∀ first : Int, (ListMetafields.vars id first).get IdSlot.listMetafieldsOwner.key
      = some (.str (IdSlot.sent .listMetafieldsOwner id))) ∧
    (∀ first : Int, (ListInventoryLevels.vars id first).get IdSlot.listInventoryLevels.key
      = some (.str (IdSlot.sent .listInventoryLevels id))) ∧
    (ListFulfillmentOrders.vars id).get IdSlot.listFulfillmentOrders.key
      = some (.str (IdSlot.sent .listFulfillmentOrders id)) ∧
    (∀ fields, (UpdateMetaobject.vars id fields).get IdSlot.updateMetaobject.key
      = some (.str (IdSlot.sent .updateMetaobject id))) := by
  refine ⟨fun T hT => ?_, fun h => ?_, ?_, fun _ => rfl, fun _ => rfl, rfl, fun _ => rfl⟩
  · have hs : slot.sent id = ToGID T id := by
      cases slot <;> simp only [IdSlot.resourceType, Option.some.injEq, reduceCtorEq] at hT <;>
        subst hT <;> rfl
    exact ⟨hs, hs ▸ HasPrefix_ToGID T id⟩
  · cases slot <;> simp only [IdSlot.resourceType, reduceCtorEq] at h <;> rfl
  · cases slot <;> simp [IdSlot.resourceType]

theorem identifiers_qualified_witness :
    IdSlot.sent .getProduct "1234567890" = "gid://shopify/Product/1234567890" ∧
    HasPrefix (IdSlot.sent .cancelOrder "42") "gid://" = true ∧
    IdSlot.sent .setMetafieldOwner "gid://shopify/Product/1" = "gid://shopify/Product/1" :=
  ⟨((identifiers_qualified .getProduct "1234567890").1 "Product" rfl).1.trans (by decide),
    ((identifiers_qualified .cancelOrder "42").1 "Order" rfl).2,
    (identifiers_qualified .setMetafieldOwner "gid://shopify/Product/1").2.1 rfl⟩

/-! ## Page-size hint and cursor across all list operations: the amended claim -/

/-- Every call sends the page-size hint it was given as `first`. -/
theorem ListCall.hint_sent (call : ListCall) (n : Int) (h : call.hint = some n) :
    call.vars.get "first" = some (.int n) := by
  cases call <;> simp only [ListCall.hint, Option.some.injEq, reduceCtorEq] at h <;> subst h
  case products first after query =>
    simp only [ListCall.vars, ListProducts.vars, GoMap.get_ite_set, GoMap.get]; simp
  case orders first after query =>
    simp only [ListCall.vars, ListOrders.vars, GoMap.get_ite_set, GoMap.get]; simp
  case customers first after query =>
    simp only [ListCall.vars, ListCustomers.vars, GoMap.get_ite_set, GoMap.get]; simp
  case collections first after query =>
    simp only [ListCall.vars, ListCollections.vars, GoMap.get_ite_set, GoMap.get]; simp
  case inventoryItems first after query =>
    simp only [ListCall.vars, ListInventoryItems.vars, GoMap.get_ite_set, GoMap.get]; simp
  case discounts first after query =>
    simp only [ListCall.vars, ListDiscounts.vars, GoMap.get_ite_set, GoMap.get]; simp
  case webhooks first after =>
    simp only [ListCall.vars, ListWebhooks.vars, GoMap.get_ite_set, GoMap.get]; simp
  case metaobjects metaobjectType first after =>
    simp only [ListCall.vars, ListMetaobjects.vars, GoMap.get_ite_set, GoMap.get]; simp
  case metaobjectDefinitions first =>
    simp [ListCall.vars, ListMetaobjectDefinitions.vars, GoMap.get]
  case locations first => simp [ListCall.vars, ListLocations.vars, GoMap.get]
  case inventoryLevels locationID first =>
    simp [ListCall.vars, ListInventoryLevels.vars, GoMap.get]
  case markets first => simp [ListCall.vars, ListMarkets.vars, GoMap.get]
  case metafields ownerID first => simp [ListCall.vars, ListMetafields.vars, GoMap.get]

/-- Every call forwards the cursor it was given: `after` is sent exactly when
the cursor is non-empty, and then holds it. -/
theorem ListCall.cursor_forwarded (call : ListCall) (a : String) (h : call.cursor = some a) :
    CursorForwarded call.vars a := by
  cases call <;> simp only [ListCall.cursor, Option.some.injEq, reduceCtorEq] at h <;> subst h
  case products first after query =>
    exact cursorForwarded_then_query _ after query
      (cursorForwarded_of_base _ after (by simp [GoMap.get]))
  case orders first after query =>
    exact cursorForwarded_then_query _ after query
      (cursorForwarded_of_base _ after (by simp [GoMap.get]))
  case customers first after query =>
    exact cursorForwarded_then_query _ after query
      (cursorForwarded_of_base _ after (by simp [GoMap.get]))
  case collections first after query =>
    exact cursorForwarded_then_query _ after query
      (cursorForwarded_of_base _ after (by simp [GoMap.get]))
  case inventoryItems first after query =>
    exact cursorForwarded_then_query _ after query
      (cursorForwarded_of_base _ after (by simp [GoMap.get]))
  case discounts first after query =>
    exact cursorForwarded_then_query _ after query
      (cursorForwarded_of_base _ after (by simp [GoMap.get]))
  case webhooks first after =>
    exact cursorForwarded_of_base _ after (by simp [GoMap.get])
  case metaobjects metaobjectType first after =>
    exact cursorForwarded_of_base _ after (by simp [GoMap.get])

/-- A call without a cursor parameter never sends `after`. -/
theorem ListCall.no_cursor_no_after (call : ListCall) (h : call.cursor = none) :
    call.vars.get "after" = none := by
  cases call <;> simp only [ListCall.cursor, reduceCtorEq] at h
  · simp [ListCall.vars, ListMetaobjectDefinitions.vars, GoMap.get]
  · simp [ListCall.vars, ListLocations.vars, GoMap.get]
  · simp [ListCall.vars, ListInventoryLevels.vars, GoMap.get]
  · simp [ListCall.vars, ListMarkets.vars, GoMap.get]
  · simp [ListCall.vars, ListMetafields.vars, GoMap.get]
  · simp [ListCall.vars, ListFulfillmentOrders.vars, GoMap.get]

/-- A call without a page-size parameter never sends `first`. -/
theorem ListCall.no_hint_no_first (call : ListCall) (h : call.hint = none) :
    call.vars.get "first" = none := by
  cases call <;> simp only [ListCall.hint, reduceCtorEq] at h
  simp [ListCall.vars, ListFulfillmentOrders.vars, GoMap.get]

/-- C17, amended: every call of ListProducts, ListOrders, ListCustomers,
ListCollections, ListInventoryItems, ListDiscounts, ListWebhooks and
ListMetaobjects takes a page-size hint and a cursor from its caller, and any
hint and cursor can be passed; every call of ListMetaobjectDefinitions,
ListLocations, ListInventoryLevels, ListMarkets and ListMetafields takes a
hint and no cursor, and ListFulfillmentOrders takes neither. Every call sends
the very hint it was given as `first`, whatever its other arguments; sends
the very cursor it was given as `after` exactly when that cursor is non-empty;
and a call without a cursor parameter never sends `after`, one without a hint
parameter never `first`. -/
theorem list_ops_hint_and_cursor :
    (∀ (call : ListCall) (n : Int), call.hint = some n →
      call.vars.get "first" = some (.int n)) ∧
    (∀ (call : ListCall) (a : String), call.cursor = some a →
      (call.vars.contains "after" = true ↔ a ≠ "") ∧
      (a ≠ "" → call.vars.get "after" = some (.str a))) ∧
    (∀ call : ListCall, call.op ∈ cursorListOps →
      (∃ n, call.hint = some n) ∧ ∃ a, call.cursor = some a) ∧
    (∀ op ∈ cursorListOps, ∀ (n : Int) (a : String),
      ∃ call : ListCall, call.op = op ∧ call.hint = some n ∧ call.cursor = some a) ∧
    (∀ call : ListCall, call.op ∈ hintOnlyListOps →
      (∃ n, call.hint = some n) ∧ call.cursor = none) ∧
    (∀ op ∈ hintOnlyListOps, ∀ n : Int,
      ∃ call : ListCall, call.op = op ∧ call.hint = some n) ∧
    (∀ call : ListCall, call.op = .fulfillmentOrders →
      call.hint = none ∧ call.cursor = none) ∧
    (∀ call : ListCall, call.cursor = none → call.vars.get "after" = none) ∧
    (∀ call : ListCall, call.hint = none → call.vars.get "first" = none) := by
  refine ⟨ListCall.hint_sent, fun call a h => ListCall.cursor_forwarded call a h, ?_, ?_, ?_, ?_,
    ?_, ListCall.no_cursor_no_after, ListCall.no_hint_no_first⟩
  · intro call hop
    cases call <;> simp only [ListCall.op, cursorListOps, List.mem_cons, List.mem_singleton,
      List.not_mem_nil, reduceCtorEq, or_false, or_self] at hop <;>
      exact ⟨⟨_, rfl⟩, ⟨_, rfl⟩⟩
  · intro op hop n a
    simp only [cursorListOps, List.mem_cons, List.mem_singleton, List.not_mem_nil,
      or_false] at hop
    rcases hop with rfl | rfl | rfl | rfl | rfl | rfl | rfl | rfl
    · exact ⟨.products n a "", rfl, rfl, rfl⟩
    · exact ⟨.orders n a "", rfl, rfl, rfl⟩
    · exact ⟨.customers n a "", rfl, rfl, rfl⟩
    · exact ⟨.collections n a "", rfl, rfl, rfl⟩
    · exact ⟨.inventoryItems n a "", rfl, rfl, rfl⟩
    · exact ⟨.discounts n a "", rfl, rfl, rfl⟩
    · exact ⟨.webhooks n a, rfl, rfl, rfl⟩
    · exact ⟨.metaobjects "" n a, rfl, rfl, rfl⟩
  · intro call hop
    cases call <;> simp only [ListCall.op, hintOnlyListOps, List.mem_cons, List.mem_singleton,
      List.not_mem_nil, reduceCtorEq, or_false, or_self] at hop <;>
      exact ⟨⟨_, rfl⟩, rfl⟩
  · intro op hop n
    simp only [hintOnlyListOps, List.mem_cons, List.mem_singleton, List.not_mem_nil,
      or_false] at hop
    rcases hop with rfl | rfl | rfl | rfl | rfl
    · exact ⟨.metaobjectDefinitions n, rfl, rfl⟩
    · exact ⟨.locations n, rfl, rfl⟩
    · exact ⟨.inventoryLevels "" n, rfl, rfl⟩
    · exact ⟨.markets n, rfl, rfl⟩
    · exact ⟨.metafields "" n, rfl, rfl⟩
  · intro call hop
    cases call <;> simp only [ListCall.op, reduceCtorEq] at hop
    exact ⟨rfl, rfl⟩

theorem list_ops_hint_and_cursor_witness :
    (ListCall.products 25 "eyJsYXN0X2lkIjo0fQ==" "status:active").vars.get "first"
      = some (.int 25) ∧
    (ListCall.products 25 "eyJsYXN0X2lkIjo0fQ==" "status:active").vars.get "after"
      = some (.str "eyJsYXN0X2lkIjo0fQ==") ∧
    (ListCall.metaobjects "lookbook" 10 "").vars.contains "after" = false ∧
    (ListCall.inventoryLevels "7" 100).vars.get "first" = some (.int 100) ∧
    (ListCall.inventoryLevels "7" 100).vars.get "after" = none ∧
    (ListCall.fulfillmentOrders "7").vars.get "first" = none := by
  refine ⟨list_ops_hint_and_cursor.1 (.products 25 "eyJsYXN0X2lkIjo0fQ==" "status:active") 25 rfl,
    (list_ops_hint_and_cursor.2.1 (.products 25 "eyJsYXN0X2lkIjo0fQ==" "status:active")
      "eyJsYXN0X2lkIjo0fQ==" rfl).2 (by decide), ?_,
    list_ops_hint_and_cursor.1 (.inventoryLevels "7" 100) 100 rfl,
    list_ops_hint_and_cursor.2.2.2.2.2.2.2.1 (.inventoryLevels "7" 100) rfl,
    list_ops_hint_and_cursor.2.2.2.2.2.2.2.2 (.fulfillmentOrders "7") rfl⟩
  have h := (list_ops_hint_and_cursor.2.1 (.metaobjects "lookbook" 10 "") "" rfl).1
  cases hc : (ListCall.metaobjects "lookbook" 10 "").vars.contains "after"
  · rfl
  · exact absurd rfl (h.mp hc)

end ShopifyAdmin
